import Mathlib

/-
Verification development for the consent-form builder
(src/consent_forms/build_consent.py of the German_Lexicon_Project repository).

The Python source locates replaceable regions in an HTML template with
re-module patterns compiled with re.IGNORECASE and replaces the first
occurrence (subn with count=1).  We embed the relevant regex fragments as
explicit backtracking matchers over List Char, written in continuation
passing style so that greedy and lazy quantifier backtracking follows the
preference order of the Python regex engine:

  - a literal produced by re.escape is matched character by character,
    case-insensitively (litCI);
  - a greedy whitespace run backslash-s-star tries the longest run first
    and backtracks one character at a time (wsStar);
  - a greedy attribute run matching any characters other than a closing
    angle bracket tries longest first (attrStar);
  - a lazy any-character run tries the empty match first (lazyStar);
  - zero-width lookaheads become Boolean tests on the remaining input
    (sectionBoundary, h3HeadingHere, h2ContainsHere);
  - subn with count=1 scans for the leftmost matching position (findFrom).

The whitespace class is the exact set of code points matched by the re
module for str patterns.  Case folding is modelled on the ASCII fragment
(Python applies Unicode folding, which coincides with the ASCII rules on
every anchor string and on the marker and tag syntax used by the program).
-/

namespace Consent

/-- ASCII case folding on code points: Python str.lower restricted to the
ASCII uppercase range, expressed on Nat so no Char construction is needed. -/
def lowerNat (n : Nat) : Nat :=
  if 65 ≤ n ∧ n ≤ 90 then n + 32 else n

/-- Case-insensitive character comparison, as performed by re.IGNORECASE. -/
def lowEq (a b : Char) : Bool :=
  lowerNat a.toNat == lowerNat b.toNat

/-- The regex whitespace class (backslash-s) for str patterns: the exact
set of code points matched by the re module, which is the set of Unicode
whitespace characters recognized by str.isspace. -/
def isPySpace (c : Char) : Bool :=
  (9 ≤ c.toNat && c.toNat ≤ 13) || (28 ≤ c.toNat && c.toNat ≤ 32) ||
  c.toNat == 133 || c.toNat == 160 || c.toNat == 5760 ||
  (8192 ≤ c.toNat && c.toNat ≤ 8202) ||
  c.toNat == 8232 || c.toNat == 8233 || c.toNat == 8239 ||
  c.toNat == 8287 || c.toNat == 12288

/-- Match a literal pattern string (the output of re.escape) character by
character, case-insensitively; return the remaining input on success. -/
def dropCI : List Char → List Char → Option (List Char)
  | [], cs => some cs
  | _ :: _, [] => none
  | p :: ps, c :: cs => if lowEq p c then dropCI ps cs else none

/-- Boolean form of dropCI: does the literal pattern match here. -/
def leadsCI (pat cs : List Char) : Bool :=
  (dropCI pat cs).isSome

/-- Continuation-passing literal matcher. -/
def litCI (pat : List Char) (k : List Char → Option α) (cs : List Char) : Option α :=
  match dropCI pat cs with
  | some rest => k rest
  | none => none

/-- Greedy backslash-s-star with backtracking: consume as much whitespace
as possible, then give characters back one at a time until the
continuation succeeds. -/
def wsStar (k : List Char → Option α) : List Char → Option α
  | [] => k []
  | c :: cs =>
    if isPySpace c then
      match wsStar k cs with
      | some r => some r
      | none => k (c :: cs)
    else k (c :: cs)

/-- Greedy star over the class of characters other than a closing angle
bracket, as used for attribute runs inside opening tags. -/
def attrStar (k : List Char → Option α) : List Char → Option α
  | [] => k []
  | c :: cs =>
    if c = '>' then k (c :: cs)
    else
      match attrStar k cs with
      | some r => some r
      | none => k (c :: cs)

/-- Lazy any-character star: try the continuation at the current position
first, then consume one more character. -/
def lazyStar (k : List Char → Option α) : List Char → Option α
  | [] => k []
  | c :: cs =>
    match k (c :: cs) with
    | some r => some r
    | none => lazyStar k cs

/-- Advance until the zero-width test holds, returning the remaining input
at the first position where it does (the lazy section run followed by a
lookahead). -/
def scanUntil (b : List Char → Bool) : List Char → Option (List Char)
  | [] => if b [] then some [] else none
  | c :: cs => if b (c :: cs) then some (c :: cs) else scanUntil b cs

/-- Leftmost-match scan of subn: try the pattern at position 0, 1, ...
(including the position at end of input) and stop at the first success. -/
def findFrom (m : List Char → Option α) : List Char → Option (Nat × α)
  | [] => (m []).map fun a => (0, a)
  | c :: cs =>
    match m (c :: cs) with
    | some a => some (0, a)
    | none => (findFrom m cs).map fun p => (p.1 + 1, p.2)

/-! ### The four pattern matchers of build_consent.py -/

/-- One marker comment: the regex fragment for an HTML comment holding the
marker name, with arbitrary internal whitespace. -/
def markerPat (name : List Char) (k : List Char → Option α) : List Char → Option α :=
  litCI "<!--".data (wsStar (litCI name (wsStar (litCI "-->".data k))))

/-- The full pattern of replace_between_markers: start comment, lazy body,
end comment. -/
def markerPairPat (s e : List Char) : List Char → Option (List Char) :=
  markerPat s (lazyStar (markerPat e some))

/-- The normalized marker comment emitted by the replacement. -/
def normMarker (name : List Char) : List Char :=
  "<!-- ".data ++ name ++ " -->".data

/-- replace_between_markers from build_consent.py: replace the content
between the first matching pair of comment markers, re-emitting normalized
marker comments, and report whether a replacement occurred. -/
def replace_between_markers (html s e repl : List Char) : List Char × Bool :=
  match findFrom (markerPairPat s e) html with
  | some (i, rest) =>
    (html.take i ++ normMarker s ++ '\n' :: repl ++ '\n' :: normMarker e ++ rest, true)
  | none => (html, false)

/-- The captured prefix group shared by the three heading matchers: a level
three heading tag with arbitrary attributes around the anchor text, plus
the trailing whitespace run. -/
def h3Pre (t : List Char) (k : List Char → Option α) : List Char → Option α :=
  litCI "<h3".data
    (attrStar (litCI ">".data
      (wsStar (litCI t (wsStar (litCI "</h3>".data (wsStar k)))))))

/-- Lookahead alternative of replace_section_after_heading: a level two or
three heading opener.  Existence of a match of the attribute run followed
by the closing bracket is equivalent to a later closing bracket. -/
def h23open (cs : List Char) : Bool :=
  (leadsCI "<h2".data cs || leadsCI "<h3".data cs) && (cs.drop 3).contains '>'

/-- The boundary lookahead of replace_section_after_heading. -/
def sectionBoundary (cs : List Char) : Bool :=
  h23open cs || leadsCI "</section>".data cs || leadsCI "</div>".data cs ||
  leadsCI "<button".data cs || leadsCI "<br".data cs ||
  leadsCI "</body>".data cs || leadsCI "</html>".data cs || cs.isEmpty

/-- Zero-width test for a complete level three heading with the given text
(the lookahead of replace_between_headings). -/
def h3HeadingHere (t : List Char) (cs : List Char) : Bool :=
  (litCI "<h3".data
    (attrStar (litCI ">".data
      (wsStar (litCI t (wsStar (litCI "</h3>".data some)))))) cs).isSome

/-- Zero-width test for a level two heading containing the given fragment
(the lookahead of replace_between_heading_and_h2). -/
def h2ContainsHere (t : List Char) (cs : List Char) : Bool :=
  (litCI "<h2".data
    (attrStar (litCI ">".data
      (lazyStar (litCI t (lazyStar (litCI "</h2>".data some)))))) cs).isSome

/-- Pattern of replace_section_after_heading: the captured heading prefix,
then the lazy section run up to the boundary lookahead.  The result pair
holds the remaining input after the prefix group and after the whole
match. -/
def sectionPat (t : List Char) : List Char → Option (List Char × List Char) :=
  h3Pre t fun restPre =>
    (scanUntil sectionBoundary restPre).map fun restEnd => (restPre, restEnd)

/-- Pattern of replace_between_headings. -/
def headingPairPat (hs he : List Char) : List Char → Option (List Char × List Char) :=
  h3Pre hs fun restPre =>
    (scanUntil (h3HeadingHere he) restPre).map fun restEnd => (restPre, restEnd)

/-- Pattern of replace_between_heading_and_h2. -/
def headingH2Pat (hs frag : List Char) : List Char → Option (List Char × List Char) :=
  h3Pre hs fun restPre =>
    (scanUntil (h2ContainsHere frag) restPre).map fun restEnd => (restPre, restEnd)

/-- Shared replacement step of the three heading matchers: the captured
prefix group is re-emitted verbatim, followed by the replacement text and
one newline, and the document resumes at the boundary position. -/
def replaceHeadingCore (html : List Char)
    (pat : List Char → Option (List Char × List Char))
    (repl : List Char) : List Char × Bool :=
  match findFrom pat html with
  | some (i, (restPre, restEnd)) =>
    (html.take i ++ (html.drop i).take (html.length - restPre.length - i) ++
      repl ++ '\n' :: restEnd, true)
  | none => (html, false)

/-- replace_section_after_heading from build_consent.py. -/
def replace_section_after_heading (html heading repl : List Char) : List Char × Bool :=
  replaceHeadingCore html (sectionPat heading) repl

/-- replace_between_headings from build_consent.py. -/
def replace_between_headings (html hs he repl : List Char) : List Char × Bool :=
  replaceHeadingCore html (headingPairPat hs he) repl

/-- replace_between_heading_and_h2 from build_consent.py. -/
def replace_between_heading_and_h2 (html hs frag repl : List Char) : List Char × Bool :=
  replaceHeadingCore html (headingH2Pat hs frag) repl

/-! ### Field Replacement Policy (perform_conditional_replacements) -/

/-- A JSON scalar as it reaches site_cfg.get: the mapping file may hold a
string or a Boolean under a flag key. -/
inductive ConfigVal where
  | str (v : List Char)
  | bool (v : Bool)
deriving DecidableEq

/-- The Python str() conversion applied to a configuration value before
the flag comparison. -/
def pyStr : ConfigVal → List Char
  | .str v => v
  | .bool true => "True".data
  | .bool false => "False".data

/-- Case-insensitive list equality: x.lower() == y for an ASCII right hand
side, as in the yes-flag and default-key comparisons. -/
def ciEq : List Char → List Char → Bool
  | [], [] => true
  | a :: xs, b :: ys => lowEq a b && ciEq xs ys
  | _, _ => false

/-- One site entry of the mapping: the three flag keys and the three text
keys read by perform_conditional_replacements.  An absent key is none. -/
structure SiteCfg where
  reimbFlag : Option ConfigVal
  reimbText : Option (List Char)
  dpoFlag : Option ConfigVal
  dpoText : Option (List Char)
  complainFlag : Option ConfigVal
  complainText : Option (List Char)
deriving DecidableEq

/-- The activation test: str(site_cfg.get(flag_key, no)).lower() == yes.
No trimming is performed before the comparison. -/
def flagYes (v : Option ConfigVal) : Bool :=
  ciEq (pyStr (v.getD (ConfigVal.str "no".data))) "yes".data

/-- Python falsiness of an optional replacement text: absent key or empty
string. -/
def falsyText (t : Option (List Char)) : Bool :=
  match t with
  | none => true
  | some v => v.isEmpty

/-- The three logical fields. -/
inductive FieldTag where
  | reimbursement
  | dataProtection
  | complaintRights
deriving DecidableEq

/-- A warning event emitted by the policy, identifying the site and field
(the source formats these as logger.warning messages). -/
inductive Warn where
  | missingText (site : List Char) (f : FieldTag)
  | regionNotFound (site : List Char) (f : FieldTag)
deriving DecidableEq

/-- The reimbursement field block: markers first, then the heading
fallback, warnings exactly as in the source. -/
def applyReimbursement (site : List Char) (cfg : SiteCfg) (html : List Char) :
    List Char × List Warn :=
  if flagYes cfg.reimbFlag then
    if falsyText cfg.reimbText then
      (html, [Warn.missingText site FieldTag.reimbursement])
    else
      let t := cfg.reimbText.getD []
      let m := replace_between_markers html "REIMBURSEMENT_START".data "REIMBURSEMENT_END".data t
      if m.2 then (m.1, [])
      else
        let f := replace_section_after_heading html "Aufwandsentschädigung".data t
        if f.2 then (f.1, [])
        else (html, [Warn.regionNotFound site FieldTag.reimbursement])
  else (html, [])

/-- The data protection field block: between the Verantwortliche and
Rechtsgrundlage headings first, then markers, then the heading fallback. -/
def applyDataProtection (site : List Char) (cfg : SiteCfg) (html : List Char) :
    List Char × List Warn :=
  if flagYes cfg.dpoFlag then
    if falsyText cfg.dpoText then
      (html, [Warn.missingText site FieldTag.dataProtection])
    else
      let t := cfg.dpoText.getD []
      let hpair := replace_between_headings html "Verantwortliche".data "Rechtsgrundlage".data t
      if hpair.2 then (hpair.1, [])
      else
        let m := replace_between_markers html "DPO_START".data "DPO_END".data t
        if m.2 then (m.1, [])
        else
          let f := replace_section_after_heading html "Verantwortliche".data t
          if f.2 then (f.1, [])
          else (html, [Warn.regionNotFound site FieldTag.dataProtection])
  else (html, [])

/-- The complaint rights field block: from the Beschwerderecht heading to
the Einwilligungserklärung level two heading first, then markers, then the
heading fallback. -/
def applyComplaintRights (site : List Char) (cfg : SiteCfg) (html : List Char) :
    List Char × List Warn :=
  if flagYes cfg.complainFlag then
    if falsyText cfg.complainText then
      (html, [Warn.missingText site FieldTag.complaintRights])
    else
      let t := cfg.complainText.getD []
      let h2m := replace_between_heading_and_h2 html "Beschwerderecht".data "Einwilligungserklärung".data t
      if h2m.2 then (h2m.1, [])
      else
        let m := replace_between_markers html "COMPLAIN_START".data "COMPLAIN_END".data t
        if m.2 then (m.1, [])
        else
          let f := replace_section_after_heading html "Beschwerderecht".data t
          if f.2 then (f.1, [])
          else (html, [Warn.regionNotFound site FieldTag.complaintRights])
  else (html, [])

/-- perform_conditional_replacements from build_consent.py: the three
field blocks run in order, each on the document produced by the previous
one; the warning events are collected in emission order. -/
def perform_conditional_replacements (site : List Char) (cfg : SiteCfg) (html : List Char) :
    List Char × List Warn :=
  let r1 := applyReimbursement site cfg html
  let r2 := applyDataProtection site cfg r1.1
  let r3 := applyComplaintRights site cfg r2.1
  (r3.1, r1.2 ++ r2.2 ++ r3.2)

/-! ### Site Batch Driver (the mapping loop of main) -/

/-- The per-site loop of main: skip any entry whose key lowercases to the
sentinel word default, otherwise emit one output document and increment
the generated count.  The skipped count is never incremented.  The result
is the list of generated (site, document) pairs in iteration order, the
generated count and the skipped count. -/
def runBatch (tmpl : List Char) : List (List Char × SiteCfg) →
    List (List Char × List Char) × Nat × Nat
  | [] => ([], 0, 0)
  | (site, cfg) :: rest =>
    if ciEq site "default".data then runBatch tmpl rest
    else
      let doc := (perform_conditional_replacements site cfg tmpl).1
      let r := runBatch tmpl rest
      ((site, doc) :: r.1, r.2.1 + 1, r.2.2)

/-! ### Auxiliary predicates used by the theorems -/

/-- The pattern fails at every position strictly inside p when scanning
p ++ rest. -/
def FailsOn (m : List Char → Option α) : List Char → List Char → Prop
  | [], _ => True
  | c :: p, rest => m (c :: (p ++ rest)) = none ∧ FailsOn m p rest

/-- Every character of the segment differs from the tag opener, up to the
case folding used by the matchers. -/
def LtFree (p : List Char) : Prop :=
  ∀ c ∈ p, lowEq '<' c = false

/-- A well-behaved anchor name: nonempty, without whitespace, never
case-equal to a space or to the tag opener.  Every anchor string used by
build_consent.py satisfies this. -/
def CleanName (s : List Char) : Prop :=
  s ≠ [] ∧ ∀ c ∈ s, isPySpace c = false ∧ lowEq c ' ' = false ∧ lowEq '<' c = false

instance decidableLtFree (p : List Char) : Decidable (LtFree p) := by
  unfold LtFree
  infer_instance

instance decidableCleanName (s : List Char) : Decidable (CleanName s) := by
  unfold CleanName
  infer_instance

/-- The segment is empty or starts with a non-whitespace character. -/
def nonWsHead (p : List Char) : Bool :=
  p.head?.all fun c => !isPySpace c

/-- Every character of the segment is regex whitespace. -/
def WsList (w : List Char) : Prop :=
  ∀ c ∈ w, isPySpace c = true

/-- Does the comment opener occur anywhere in the segment. -/
def hasOpen : List Char → Bool
  | [] => false
  | c :: cs => leadsCI "<!--".data (c :: cs) || hasOpen cs

/-- Closed form of one marker-comment match for a clean marker name: the
comment opener, a maximal whitespace run, the name, a maximal whitespace
run and the comment closer, consumed deterministically (for clean names
the backtracking of the whitespace stars never changes the outcome, see
the lemma markerPat_closed). -/
def markerStrip (name cs : List Char) : Option (List Char) :=
  (dropCI "<!--".data cs).bind fun r1 =>
    (dropCI name (r1.dropWhile isPySpace)).bind fun r2 =>
      dropCI "-->".data (r2.dropWhile isPySpace)

/-! ## Basic lemmas about the combinators -/

theorem lowEq_refl (c : Char) : lowEq c c = true := by
  simp [lowEq]

theorem dropCI_self (s cs : List Char) : dropCI s (s ++ cs) = some cs := by
  induction s with
  | nil => rfl
  | cons c s ih => simp [dropCI, lowEq_refl, ih]

theorem litCI_self (pat : List Char) (k : List Char → Option α) (cs : List Char) :
    litCI pat k (pat ++ cs) = k cs := by
  simp [litCI, dropCI_self]

theorem litCI_cons_none {p c : Char} (h : lowEq p c = false)
    (ps : List Char) (k : List Char → Option α) (cs : List Char) :
    litCI (p :: ps) k (c :: cs) = none := by
  simp [litCI, dropCI, h]

theorem wsStar_nil (k : List Char → Option α) : wsStar k [] = k [] := rfl

theorem wsStar_nonws {c : Char} (h : isPySpace c = false)
    (k : List Char → Option α) (cs : List Char) :
    wsStar k (c :: cs) = k (c :: cs) := by
  simp [wsStar, h]

theorem wsStar_ws {c : Char} (h : isPySpace c = true)
    (k : List Char → Option α) (cs : List Char) :
    wsStar k (c :: cs) =
      match wsStar k cs with
      | some r => some r
      | none => k (c :: cs) := by
  simp [wsStar, h]

theorem attrStar_gt (k : List Char → Option α) (cs : List Char) :
    attrStar k ('>' :: cs) = k ('>' :: cs) := by
  simp [attrStar]

theorem lazyStar_nil (k : List Char → Option α) : lazyStar k [] = k [] := rfl

theorem lazyStar_cons (k : List Char → Option α) (c : Char) (cs : List Char) :
    lazyStar k (c :: cs) =
      match k (c :: cs) with
      | some r => some r
      | none => lazyStar k cs := rfl

theorem scanUntil_here {b : List Char → Bool} {cs : List Char} (h : b cs = true) :
    scanUntil b cs = some cs := by
  cases cs <;> simp [scanUntil, h]

theorem scanUntil_skip {b : List Char → Bool} {c : Char} {cs : List Char}
    (h : b (c :: cs) = false) :
    scanUntil b (c :: cs) = scanUntil b cs := by
  simp [scanUntil, h]

theorem findFrom_here {m : List Char → Option α} {cs : List Char} {a : α}
    (h : m cs = some a) : findFrom m cs = some (0, a) := by
  cases cs <;> simp [findFrom, h]

theorem findFrom_skip {m : List Char → Option α} {c : Char} {cs : List Char}
    (h : m (c :: cs) = none) :
    findFrom m (c :: cs) = (findFrom m cs).map fun p => (p.1 + 1, p.2) := by
  simp [findFrom, h]

/-! ## FailsOn and leftmost-scan lemmas -/

theorem failsOn_nil (m : List Char → Option α) (rest : List Char) :
    FailsOn m [] rest := trivial

theorem failsOn_cons {m : List Char → Option α} {c : Char} {p rest : List Char}
    (h0 : m (c :: (p ++ rest)) = none) (h1 : FailsOn m p rest) :
    FailsOn m (c :: p) rest := ⟨h0, h1⟩

theorem failsOn_append {m : List Char → Option α} {a b rest : List Char}
    (h1 : FailsOn m a (b ++ rest)) (h2 : FailsOn m b rest) :
    FailsOn m (a ++ b) rest := by
  induction a with
  | nil => simpa using h2
  | cons c a ih =>
    obtain ⟨h0, h1'⟩ := h1
    exact ⟨by simpa [List.append_assoc] using h0, ih h1'⟩

theorem failsOn_ltFree {m : List Char → Option α}
    (hm : ∀ c cs, lowEq '<' c = false → m (c :: cs) = none)
    {p : List Char} (hp : LtFree p) (rest : List Char) : FailsOn m p rest := by
  induction p with
  | nil => trivial
  | cons c p ih =>
    exact ⟨hm _ _ (hp c (by simp)), ih fun d hd => hp d (by simp [hd])⟩

theorem findFrom_append {m : List Char → Option α} {p rest : List Char}
    (h : FailsOn m p rest) :
    findFrom m (p ++ rest) = (findFrom m rest).map fun q => (q.1 + p.length, q.2) := by
  induction p with
  | nil =>
    simp only [List.nil_append, List.length_nil]
    cases findFrom m rest <;> simp
  | cons c p ih =>
    obtain ⟨h0, h1⟩ := h
    rw [List.cons_append, findFrom_skip h0, ih h1, Option.map_map]
    cases findFrom m rest <;> simp [Function.comp] <;> omega

theorem lazyStar_fails {k : List Char → Option α}
    (hk : ∀ c cs, lowEq '<' c = false → k (c :: cs) = none)
    {p : List Char} (hp : LtFree p) (rest : List Char) :
    lazyStar k (p ++ rest) = lazyStar k rest := by
  induction p with
  | nil => rfl
  | cons c p ih =>
    have h0 := hk c (p ++ rest) (hp c (by simp))
    rw [List.cons_append, lazyStar_cons, h0]
    exact ih fun d hd => hp d (by simp [hd])

theorem scanUntil_fails {b : List Char → Bool}
    (hb : ∀ c cs, lowEq '<' c = false → b (c :: cs) = false)
    {p : List Char} (hp : LtFree p) (rest : List Char) :
    scanUntil b (p ++ rest) = scanUntil b rest := by
  induction p with
  | nil => rfl
  | cons c p ih =>
    rw [List.cons_append, scanUntil_skip (hb c _ (hp c (by simp)))]
    exact ih fun d hd => hp d (by simp [hd])

/-! ## Head-failure lemmas: every pattern needs a tag opener at its start -/

theorem markerPat_head {c : Char} (h : lowEq '<' c = false)
    (name : List Char) (k : List Char → Option α) (cs : List Char) :
    markerPat name k (c :: cs) = none := by
  rw [markerPat, show "<!--".data = '<' :: "!--".data from rfl]
  exact litCI_cons_none h _ _ _

theorem markerPairPat_head {c : Char} (h : lowEq '<' c = false)
    (s e cs : List Char) : markerPairPat s e (c :: cs) = none :=
  markerPat_head h s _ cs

theorem h3Pre_head {c : Char} (h : lowEq '<' c = false)
    (t : List Char) (k : List Char → Option α) (cs : List Char) :
    h3Pre t k (c :: cs) = none := by
  rw [h3Pre, show "<h3".data = '<' :: "h3".data from rfl]
  exact litCI_cons_none h _ _ _

theorem sectionPat_head {c : Char} (h : lowEq '<' c = false)
    (t cs : List Char) : sectionPat t (c :: cs) = none :=
  h3Pre_head h t _ cs

theorem headingPairPat_head {c : Char} (h : lowEq '<' c = false)
    (hs he cs : List Char) : headingPairPat hs he (c :: cs) = none :=
  h3Pre_head h hs _ cs

theorem headingH2Pat_head {c : Char} (h : lowEq '<' c = false)
    (hs frag cs : List Char) : headingH2Pat hs frag (c :: cs) = none :=
  h3Pre_head h hs _ cs

theorem h3HeadingHere_head {c : Char} (h : lowEq '<' c = false)
    (t cs : List Char) : h3HeadingHere t (c :: cs) = false := by
  rw [h3HeadingHere, show "<h3".data = '<' :: "h3".data from rfl,
    litCI_cons_none h _ _ _]
  rfl

theorem h2ContainsHere_head {c : Char} (h : lowEq '<' c = false)
    (t cs : List Char) : h2ContainsHere t (c :: cs) = false := by
  rw [h2ContainsHere, show "<h2".data = '<' :: "h2".data from rfl,
    litCI_cons_none h _ _ _]
  rfl

/-! ## Suffix preservation: a successful match leaves a suffix of the input -/

theorem dropCI_suffix (p : List Char) :
    ∀ cs r, dropCI p cs = some r → r <:+ cs := by
  induction p with
  | nil =>
    intro cs r h
    simp [dropCI] at h
    simp [h]
  | cons c p ih =>
    intro cs r h
    cases cs with
    | nil => simp [dropCI] at h
    | cons d ds =>
      by_cases hc : lowEq c d = true
      · simp only [dropCI, hc, if_true] at h
        exact (ih ds r h).trans (List.suffix_cons d ds)
      · simp [dropCI, hc] at h

theorem litCI_suffix {pat : List Char} {k : List Char → Option α}
    {P : α → List Char → Prop}
    (mono : ∀ a x y, x <:+ y → P a x → P a y)
    (hk : ∀ cs a, k cs = some a → P a cs) :
    ∀ cs a, litCI pat k cs = some a → P a cs := by
  intro cs a h
  unfold litCI at h
  cases hd : dropCI pat cs with
  | none => rw [hd] at h; exact absurd h (by simp)
  | some rest =>
    rw [hd] at h
    exact mono a rest cs (dropCI_suffix pat cs rest hd) (hk rest a h)

theorem wsStar_suffix {k : List Char → Option α} {P : α → List Char → Prop}
    (mono : ∀ a x y, x <:+ y → P a x → P a y)
    (hk : ∀ cs a, k cs = some a → P a cs) :
    ∀ cs a, wsStar k cs = some a → P a cs := by
  intro cs
  induction cs with
  | nil => intro a h; rw [wsStar_nil] at h; exact hk [] a h
  | cons c cs ih =>
    intro a h
    by_cases hc : isPySpace c = true
    · rw [wsStar_ws hc] at h
      cases hw : wsStar k cs with
      | some r =>
        rw [hw] at h
        simp at h
        subst h
        exact mono r cs (c :: cs) (List.suffix_cons c cs) (ih r hw)
      | none =>
        rw [hw] at h
        exact hk _ _ h
    · rw [wsStar_nonws (by simpa using hc)] at h
      exact hk _ _ h

theorem attrStar_suffix {k : List Char → Option α} {P : α → List Char → Prop}
    (mono : ∀ a x y, x <:+ y → P a x → P a y)
    (hk : ∀ cs a, k cs = some a → P a cs) :
    ∀ cs a, attrStar k cs = some a → P a cs := by
  intro cs
  induction cs with
  | nil => intro a h; exact hk [] a h
  | cons c cs ih =>
    intro a h
    by_cases hc : c = '>'
    · subst hc; rw [attrStar_gt] at h; exact hk _ _ h
    · rw [show attrStar k (c :: cs) =
          (match attrStar k cs with
           | some r => some r
           | none => k (c :: cs)) by simp [attrStar, hc]] at h
      cases hw : attrStar k cs with
      | some r =>
        rw [hw] at h
        simp at h
        subst h
        exact mono r cs (c :: cs) (List.suffix_cons c cs) (ih r hw)
      | none =>
        rw [hw] at h
        exact hk _ _ h

theorem lazyStar_suffix {k : List Char → Option α} {P : α → List Char → Prop}
    (mono : ∀ a x y, x <:+ y → P a x → P a y)
    (hk : ∀ cs a, k cs = some a → P a cs) :
    ∀ cs a, lazyStar k cs = some a → P a cs := by
  intro cs
  induction cs with
  | nil => intro a h; exact hk [] a h
  | cons c cs ih =>
    intro a h
    rw [lazyStar_cons] at h
    cases hw : k (c :: cs) with
    | some r => rw [hw] at h; simp at h; subst h; exact hk _ _ hw
    | none =>
      rw [hw] at h
      exact mono a cs (c :: cs) (List.suffix_cons c cs) (ih a h)

theorem scanUntil_suffix (b : List Char → Bool) :
    ∀ cs r, scanUntil b cs = some r → r <:+ cs := by
  intro cs
  induction cs with
  | nil =>
    intro r h
    simp [scanUntil] at h
    simp [h.2]
  | cons c cs ih =>
    intro r h
    by_cases hb : b (c :: cs) = true
    · rw [scanUntil_here hb] at h
      simp at h
      simp [h]
    · rw [scanUntil_skip (by simpa using hb)] at h
      exact (ih r h).trans (List.suffix_cons c cs)

theorem markerPat_suffix {name : List Char} {k : List Char → Option α}
    {P : α → List Char → Prop}
    (mono : ∀ a x y, x <:+ y → P a x → P a y)
    (hk : ∀ cs a, k cs = some a → P a cs) :
    ∀ cs a, markerPat name k cs = some a → P a cs :=
  litCI_suffix mono (wsStar_suffix mono (litCI_suffix mono
    (wsStar_suffix mono (litCI_suffix mono hk))))

theorem markerPairPat_suffix (s e : List Char) :
    ∀ cs r, markerPairPat s e cs = some r → r <:+ cs :=
  markerPat_suffix (fun _ _ _ hxy h => h.trans hxy)
    (lazyStar_suffix (fun _ _ _ hxy h => h.trans hxy)
      (markerPat_suffix (fun _ _ _ hxy h => h.trans hxy)
        (fun cs a h => by
          simp at h
          simp [h])))

theorem h3Pre_suffix {t : List Char} {k : List Char → Option α}
    {P : α → List Char → Prop}
    (mono : ∀ a x y, x <:+ y → P a x → P a y)
    (hk : ∀ cs a, k cs = some a → P a cs) :
    ∀ cs a, h3Pre t k cs = some a → P a cs :=
  litCI_suffix mono (attrStar_suffix mono (litCI_suffix mono
    (wsStar_suffix mono (litCI_suffix mono (wsStar_suffix mono
      (litCI_suffix mono (wsStar_suffix mono hk)))))))

theorem scanPair_suffix (b : List Char → Bool) :
    ∀ cs a, ((scanUntil b cs).map fun restEnd => (cs, restEnd)) = some a →
      a.2 <:+ cs := by
  intro cs a h
  cases hs : scanUntil b cs with
  | none => rw [hs] at h; exact absurd h (by simp)
  | some r =>
    rw [hs] at h
    simp at h
    rw [← h]
    exact scanUntil_suffix b cs r hs

theorem sectionPat_suffix (t : List Char) :
    ∀ cs a, sectionPat t cs = some a → a.2 <:+ cs :=
  h3Pre_suffix (fun a _ _ hxy h => h.trans hxy)
    (fun cs a h => scanPair_suffix sectionBoundary cs a h)

theorem headingPairPat_suffix (hs he : List Char) :
    ∀ cs a, headingPairPat hs he cs = some a → a.2 <:+ cs :=
  h3Pre_suffix (fun a _ _ hxy h => h.trans hxy)
    (fun cs a h => scanPair_suffix (h3HeadingHere he) cs a h)

theorem headingH2Pat_suffix (hs frag : List Char) :
    ∀ cs a, headingH2Pat hs frag cs = some a → a.2 <:+ cs :=
  h3Pre_suffix (fun a _ _ hxy h => h.trans hxy)
    (fun cs a h => scanPair_suffix (h2ContainsHere frag) cs a h)

/-! ## findFrom position lemmas -/

theorem findFrom_spec (m : List Char → Option α) :
    ∀ cs i a, findFrom m cs = some (i, a) →
      i ≤ cs.length ∧ m (cs.drop i) = some a := by
  intro cs
  induction cs with
  | nil =>
    intro i a h
    unfold findFrom at h
    cases hm : m [] with
    | none => rw [hm] at h; exact absurd h (by simp)
    | some b =>
      rw [hm] at h
      simp at h
      obtain ⟨hi, hb⟩ := h
      subst hi
      simpa [hb] using hm
  | cons c cs ih =>
    intro i a h
    cases hm : m (c :: cs) with
    | some b =>
      rw [findFrom_here hm] at h
      simp at h
      obtain ⟨hi, hb⟩ := h
      subst hi
      simpa [hb] using hm
    | none =>
      rw [findFrom_skip hm] at h
      cases hf : findFrom m cs with
      | none => rw [hf] at h; exact absurd h (by simp)
      | some q =>
        rw [hf] at h
        simp at h
        obtain ⟨hi, hb⟩ := h
        obtain ⟨h1, h2⟩ := ih q.1 q.2 (by simpa using hf)
        subst hi
        constructor
        · simpa using Nat.succ_le_succ h1
        · simpa [hb] using h2

theorem findFrom_leftmost (m : List Char → Option α) :
    ∀ cs i a, findFrom m cs = some (i, a) →
      ∀ j, j < i → m (cs.drop j) = none := by
  intro cs
  induction cs with
  | nil =>
    intro i a h j hj
    unfold findFrom at h
    cases hm : m [] with
    | none => rw [hm] at h; exact absurd h (by simp)
    | some b =>
      rw [hm] at h
      simp at h
      omega
  | cons c cs ih =>
    intro i a h j hj
    cases hm : m (c :: cs) with
    | some b =>
      rw [findFrom_here hm] at h
      simp at h
      omega
    | none =>
      rw [findFrom_skip hm] at h
      cases hf : findFrom m cs with
      | none => rw [hf] at h; exact absurd h (by simp)
      | some q =>
        rw [hf] at h
        simp at h
        cases j with
        | zero => simpa using hm
        | succ j' =>
          simp only [List.drop_succ_cons]
          exact ih q.1 q.2 (by simpa using hf) j' (by omega)

theorem suffix_eq_drop {r l : List Char} (h : r <:+ l) :
    l.drop (l.length - r.length) = r := by
  obtain ⟨t, rfl⟩ := h
  simp

/-! ## Exact-match lemmas on canonically written regions -/

theorem wsStar_single {k : List Char → Option α} {c : Char} {X : List Char}
    (hc : isPySpace c = false) (hfb : k (' ' :: c :: X) = none) :
    wsStar k (' ' :: c :: X) = k (c :: X) := by
  rw [wsStar_ws (by decide), wsStar_nonws hc]
  cases h : k (c :: X) <;> simp [h, hfb]

theorem lazyStar_here {k : List Char → Option α} {cs : List Char} {a : α}
    (h : k cs = some a) : lazyStar k cs = some a := by
  cases cs with
  | nil => rw [lazyStar_nil, h]
  | cons c cs' => rw [lazyStar_cons, h]

theorem markerPat_exact {name : List Char} (hn : CleanName name)
    (k : List Char → Option α) (rest : List Char) :
    markerPat name k (normMarker name ++ rest) = k rest := by
  obtain ⟨hne, hchars⟩ := hn
  cases name with
  | nil => exact absurd rfl hne
  | cons n0 name' =>
    have hn0 : isPySpace n0 = false := (hchars n0 (by simp)).1
    have hs0 : lowEq n0 ' ' = false := (hchars n0 (by simp)).2.1
    have hin : normMarker (n0 :: name') ++ rest =
        "<!--".data ++ (' ' :: n0 :: (name' ++ (' ' :: '-' :: ("->".data ++ rest)))) := by
      rw [normMarker,
        show "<!-- ".data = '<' :: '!' :: '-' :: '-' :: ' ' :: [] from rfl,
        show " -->".data = ' ' :: '-' :: '-' :: '>' :: [] from rfl,
        show "<!--".data = '<' :: '!' :: '-' :: '-' :: [] from rfl,
        show "->".data = '-' :: '>' :: [] from rfl]
      simp
    rw [hin, markerPat, litCI_self,
      wsStar_single hn0 (litCI_cons_none hs0 _ _ _)]
    show litCI (n0 :: name') (wsStar (litCI "-->".data k))
      ((n0 :: name') ++ (' ' :: '-' :: ("->".data ++ rest))) = k rest
    rw [litCI_self,
      wsStar_single (by decide) (by
        rw [show "-->".data = '-' :: "->".data from rfl]
        exact litCI_cons_none (by decide) _ _ _)]
    show litCI "-->".data k ("-->".data ++ rest) = k rest
    rw [litCI_self]

theorem markerPairPat_exact {s e mid : List Char} (hs : CleanName s)
    (he : CleanName e) (hmid : LtFree mid) (q : List Char) :
    markerPairPat s e (normMarker s ++ (mid ++ (normMarker e ++ q))) = some q := by
  rw [markerPairPat, markerPat_exact hs,
    lazyStar_fails (fun c cs hc => markerPat_head hc e some cs) hmid,
    lazyStar_here (markerPat_exact he some q)]

theorem rbm_exact (p s e mid q r : List Char)
    (hfails : FailsOn (markerPairPat s e) p (normMarker s ++ (mid ++ (normMarker e ++ q))))
    (hs : CleanName s) (he : CleanName e) (hmid : LtFree mid) :
    replace_between_markers (p ++ (normMarker s ++ (mid ++ (normMarker e ++ q)))) s e r =
      (p ++ (normMarker s ++ '\n' :: r ++ '\n' :: normMarker e ++ q), true) := by
  have hff : findFrom (markerPairPat s e)
      (p ++ (normMarker s ++ (mid ++ (normMarker e ++ q)))) = some (p.length, q) := by
    rw [findFrom_append hfails, findFrom_here (markerPairPat_exact hs he hmid q)]
    simp
  simp [replace_between_markers, hff, List.take_left]

theorem wsStar_tail {k : List Char → Option α} {rest : List Char}
    (h : nonWsHead rest = true) : wsStar k rest = k rest := by
  cases rest with
  | nil => exact wsStar_nil k
  | cons c cs =>
    simp [nonWsHead] at h
    exact wsStar_nonws (by simpa using h) k cs

theorem h3Pre_exact {t : List Char} (ht : CleanName t)
    (k : List Char → Option α) {rest : List Char} (hrest : nonWsHead rest = true) :
    h3Pre t k ("<h3>".data ++ (t ++ ("</h3>".data ++ rest))) = k rest := by
  obtain ⟨hne, hchars⟩ := ht
  cases t with
  | nil => exact absurd rfl hne
  | cons t0 t' =>
    have ht0 : isPySpace t0 = false := (hchars t0 (by simp)).1
    rw [h3Pre]
    show litCI "<h3".data _ ("<h3".data ++ ('>' :: ((t0 :: t') ++ ("</h3>".data ++ rest)))) = k rest
    rw [litCI_self, attrStar_gt]
    show litCI ">".data _ (">".data ++ ((t0 :: t') ++ ("</h3>".data ++ rest))) = k rest
    rw [litCI_self]
    show wsStar _ (t0 :: (t' ++ ("</h3>".data ++ rest))) = k rest
    rw [wsStar_nonws ht0]
    show litCI (t0 :: t') _ ((t0 :: t') ++ ("</h3>".data ++ rest)) = k rest
    rw [litCI_self]
    show wsStar _ ('<' :: ("/h3>".data ++ rest)) = k rest
    rw [wsStar_nonws (by decide)]
    show litCI "</h3>".data _ ("</h3>".data ++ rest) = k rest
    rw [litCI_self]
    exact wsStar_tail hrest

theorem h3HeadChain_exact {t : List Char} (ht : CleanName t) (rest : List Char) :
    litCI "<h3".data (attrStar (litCI ">".data
      (wsStar (litCI t (wsStar (litCI "</h3>".data some))))))
      ("<h3>".data ++ (t ++ ("</h3>".data ++ rest))) = some rest := by
  obtain ⟨hne, hchars⟩ := ht
  cases t with
  | nil => exact absurd rfl hne
  | cons t0 t' =>
    have ht0 : isPySpace t0 = false := (hchars t0 (by simp)).1
    show litCI "<h3".data _ ("<h3".data ++ ('>' :: ((t0 :: t') ++ ("</h3>".data ++ rest)))) = some rest
    rw [litCI_self, attrStar_gt]
    show litCI ">".data _ (">".data ++ ((t0 :: t') ++ ("</h3>".data ++ rest))) = some rest
    rw [litCI_self]
    show wsStar _ (t0 :: (t' ++ ("</h3>".data ++ rest))) = some rest
    rw [wsStar_nonws ht0]
    show litCI (t0 :: t') _ ((t0 :: t') ++ ("</h3>".data ++ rest)) = some rest
    rw [litCI_self]
    show wsStar _ ('<' :: ("/h3>".data ++ rest)) = some rest
    rw [wsStar_nonws (by decide)]
    show litCI "</h3>".data some ("</h3>".data ++ rest) = some rest
    rw [litCI_self]

theorem h3HeadingHere_exact {t : List Char} (ht : CleanName t) (rest : List Char) :
    h3HeadingHere t ("<h3>".data ++ (t ++ ("</h3>".data ++ rest))) = true := by
  rw [h3HeadingHere, h3HeadChain_exact ht rest]
  rfl

theorem h2ContainsHere_exact (t : List Char) (rest : List Char) :
    h2ContainsHere t ("<h2>".data ++ (t ++ ("</h2>".data ++ rest))) = true := by
  have hchain : litCI "<h2".data (attrStar (litCI ">".data
      (lazyStar (litCI t (lazyStar (litCI "</h2>".data some))))))
      ("<h2>".data ++ (t ++ ("</h2>".data ++ rest))) = some rest := by
    show litCI "<h2".data _ ("<h2".data ++ ('>' :: (t ++ ("</h2>".data ++ rest)))) = some rest
    rw [litCI_self, attrStar_gt]
    show litCI ">".data _ (">".data ++ (t ++ ("</h2>".data ++ rest))) = some rest
    rw [litCI_self]
    exact lazyStar_here (by
      rw [litCI_self]
      exact lazyStar_here (litCI_self "</h2>".data some rest))
  rw [h2ContainsHere, hchain]
  rfl

theorem headingCore_exact {pat : List Char → Option (List Char × List Char)}
    {p pfx secRest bound : List Char} (r : List Char)
    (hfails : FailsOn pat p (pfx ++ secRest))
    (hmatch : pat (pfx ++ secRest) = some (secRest, bound)) :
    replaceHeadingCore (p ++ (pfx ++ secRest)) pat r =
      (p ++ (pfx ++ (r ++ '\n' :: bound)), true) := by
  have hff : findFrom pat (p ++ (pfx ++ secRest)) = some (p.length, (secRest, bound)) := by
    rw [findFrom_append hfails, findFrom_here hmatch]
    simp
  have hlen : (p ++ (pfx ++ secRest)).length - secRest.length - p.length = pfx.length := by
    simp only [List.length_append]
    omega
  have hdrop : (p ++ (pfx ++ secRest)).drop p.length = pfx ++ secRest :=
    List.drop_left p (pfx ++ secRest)
  simp only [replaceHeadingCore, hff, hdrop, hlen, List.take_left]
  simp

theorem nonWsHead_append_lt {sec X : List Char} (hsech : nonWsHead sec = true)
    (hX : nonWsHead X = true) : nonWsHead (sec ++ X) = true := by
  cases sec with
  | nil => simpa using hX
  | cons c cs => simpa [nonWsHead] using hsech

theorem rbh_exact {p hs he sec : List Char} (q r : List Char)
    (hfails : FailsOn (headingPairPat hs he) p
      (("<h3>".data ++ (hs ++ "</h3>".data)) ++
        (sec ++ ("<h3>".data ++ (he ++ ("</h3>".data ++ q))))))
    (hhs : CleanName hs) (hhe : CleanName he)
    (hsec : LtFree sec) (hsech : nonWsHead sec = true) :
    replace_between_headings
      (p ++ (("<h3>".data ++ (hs ++ "</h3>".data)) ++
        (sec ++ ("<h3>".data ++ (he ++ ("</h3>".data ++ q)))))) hs he r =
      (p ++ (("<h3>".data ++ (hs ++ "</h3>".data)) ++
        (r ++ '\n' :: ("<h3>".data ++ (he ++ ("</h3>".data ++ q))))), true) := by
  have hshape : ("<h3>".data ++ (hs ++ "</h3>".data)) ++
      (sec ++ ("<h3>".data ++ (he ++ ("</h3>".data ++ q)))) =
      "<h3>".data ++ (hs ++ ("</h3>".data ++
        (sec ++ ("<h3>".data ++ (he ++ ("</h3>".data ++ q)))))) := by
    simp [List.append_assoc]
  have hscan : scanUntil (h3HeadingHere he)
      (sec ++ ("<h3>".data ++ (he ++ ("</h3>".data ++ q)))) =
      some ("<h3>".data ++ (he ++ ("</h3>".data ++ q))) := by
    rw [scanUntil_fails (fun c cs hc => h3HeadingHere_head hc he cs) hsec,
      scanUntil_here (h3HeadingHere_exact hhe q)]
  have hmatch : headingPairPat hs he
      (("<h3>".data ++ (hs ++ "</h3>".data)) ++
        (sec ++ ("<h3>".data ++ (he ++ ("</h3>".data ++ q))))) =
      some (sec ++ ("<h3>".data ++ (he ++ ("</h3>".data ++ q))),
        "<h3>".data ++ (he ++ ("</h3>".data ++ q))) := by
    rw [hshape, headingPairPat, h3Pre_exact hhs _
      (nonWsHead_append_lt hsech (by rfl)), hscan]
    rfl
  exact headingCore_exact r hfails hmatch

theorem rbh2_exact {p hs frag sec : List Char} (q r : List Char)
    (hfails : FailsOn (headingH2Pat hs frag) p
      (("<h3>".data ++ (hs ++ "</h3>".data)) ++
        (sec ++ ("<h2>".data ++ (frag ++ ("</h2>".data ++ q))))))
    (hhs : CleanName hs)
    (hsec : LtFree sec) (hsech : nonWsHead sec = true) :
    replace_between_heading_and_h2
      (p ++ (("<h3>".data ++ (hs ++ "</h3>".data)) ++
        (sec ++ ("<h2>".data ++ (frag ++ ("</h2>".data ++ q)))))) hs frag r =
      (p ++ (("<h3>".data ++ (hs ++ "</h3>".data)) ++
        (r ++ '\n' :: ("<h2>".data ++ (frag ++ ("</h2>".data ++ q))))), true) := by
  have hshape : ("<h3>".data ++ (hs ++ "</h3>".data)) ++
      (sec ++ ("<h2>".data ++ (frag ++ ("</h2>".data ++ q)))) =
      "<h3>".data ++ (hs ++ ("</h3>".data ++
        (sec ++ ("<h2>".data ++ (frag ++ ("</h2>".data ++ q)))))) := by
    simp [List.append_assoc]
  have hscan : scanUntil (h2ContainsHere frag)
      (sec ++ ("<h2>".data ++ (frag ++ ("</h2>".data ++ q)))) =
      some ("<h2>".data ++ (frag ++ ("</h2>".data ++ q))) := by
    rw [scanUntil_fails (fun c cs hc => h2ContainsHere_head hc frag cs) hsec,
      scanUntil_here (h2ContainsHere_exact frag q)]
  have hmatch : headingH2Pat hs frag
      (("<h3>".data ++ (hs ++ "</h3>".data)) ++
        (sec ++ ("<h2>".data ++ (frag ++ ("</h2>".data ++ q))))) =
      some (sec ++ ("<h2>".data ++ (frag ++ ("</h2>".data ++ q))),
        "<h2>".data ++ (frag ++ ("</h2>".data ++ q))) := by
    rw [hshape, headingH2Pat, h3Pre_exact hhs _
      (nonWsHead_append_lt hsech (by rfl)), hscan]
    rfl
  exact headingCore_exact r hfails hmatch

/-! ## Character-level classification lemmas -/

theorem char_eq_of_toNat {c d : Char} (h : c.toNat = d.toNat) : c = d :=
  Char.ext (UInt32.ext h)

theorem lowEq_symm (a b : Char) : lowEq a b = lowEq b a := by
  unfold lowEq
  by_cases h : lowerNat a.toNat = lowerNat b.toNat
  · simp [h]
  · simp [h, Ne.symm h]

theorem lowEq_sym_eq {p c : Char} (hp : p.toNat < 65) (h : lowEq p c = true) : c = p := by
  apply char_eq_of_toNat
  simp only [lowEq, lowerNat, beq_iff_eq] at h
  split at h <;> split at h <;> omega

theorem lowEq_ws {a b : Char} (h : lowEq a b = true) (hb : isPySpace b = true) :
    isPySpace a = true := by
  simp only [lowEq, lowerNat, beq_iff_eq] at h
  simp only [isPySpace, Bool.or_eq_true, Bool.and_eq_true, decide_eq_true_eq,
    beq_iff_eq] at hb ⊢
  split at h <;> split at h <;> omega

theorem ciEq_refl (a : List Char) : ciEq a a = true := by
  induction a with
  | nil => rfl
  | cons c t ih => simp [ciEq, lowEq_refl, ih]

theorem dropCI_ciEq {pat m : List Char} (h : ciEq pat m = true) (r : List Char) :
    dropCI pat (m ++ r) = some r := by
  induction pat generalizing m with
  | nil =>
    cases m with
    | nil => rfl
    | cons c cs => simp [ciEq] at h
  | cons p ps ih =>
    cases m with
    | nil => simp [ciEq] at h
    | cons c cs =>
      simp only [ciEq, Bool.and_eq_true] at h
      simp [dropCI, h.1, ih h.2]

theorem dropCI_sound {pat : List Char} : ∀ cs r, dropCI pat cs = some r →
    ∃ m, cs = m ++ r ∧ ciEq pat m = true := by
  induction pat with
  | nil =>
    intro cs r h
    simp [dropCI] at h
    exact ⟨[], by simp [h], rfl⟩
  | cons p ps ih =>
    intro cs r h
    cases cs with
    | nil => simp [dropCI] at h
    | cons c cs' =>
      by_cases hl : lowEq p c = true
      · simp only [dropCI, hl, if_true] at h
        obtain ⟨m, hm1, hm2⟩ := ih cs' r h
        exact ⟨c :: m, by simp [hm1], by simp [ciEq, hl, hm2]⟩
      · simp [dropCI, hl] at h

theorem ciEq_mem {a b : List Char} (h : ciEq a b = true) {c : Char} (hc : c ∈ b) :
    ∃ d ∈ a, lowEq d c = true := by
  induction a generalizing b with
  | nil =>
    cases b with
    | nil => simp at hc
    | cons x xs => simp [ciEq] at h
  | cons p ps ih =>
    cases b with
    | nil => simp at hc
    | cons x xs =>
      simp only [ciEq, Bool.and_eq_true] at h
      rcases List.mem_cons.mp hc with rfl | hx
      · exact ⟨p, by simp, h.1⟩
      · obtain ⟨d, hd1, hd2⟩ := ih h.2 hx
        exact ⟨d, by simp [hd1], hd2⟩

theorem ciEq_symbols {pat m : List Char} (hp : ∀ p ∈ pat, p.toNat < 65)
    (h : ciEq pat m = true) : m = pat := by
  induction pat generalizing m with
  | nil =>
    cases m with
    | nil => rfl
    | cons c cs => simp [ciEq] at h
  | cons p ps ih =>
    cases m with
    | nil => simp [ciEq] at h
    | cons c cs =>
      simp only [ciEq, Bool.and_eq_true] at h
      rw [lowEq_sym_eq (hp p (by simp)) h.1, ih (fun q hq => hp q (by simp [hq])) h.2]

theorem dropCI_open_eq {cs r : List Char} (h : dropCI "<!--".data cs = some r) :
    cs = '<' :: '!' :: '-' :: '-' :: r := by
  obtain ⟨m, h1, h2⟩ := dropCI_sound cs r h
  rw [ciEq_symbols (by decide) h2] at h1
  rw [show "<!--".data = '<' :: '!' :: '-' :: '-' :: ([] : List Char) from rfl] at h1
  simpa using h1

theorem dropCI_close_eq {cs r : List Char} (h : dropCI "-->".data cs = some r) :
    cs = '-' :: '-' :: '>' :: r := by
  obtain ⟨m, h1, h2⟩ := dropCI_sound cs r h
  rw [ciEq_symbols (by decide) h2] at h1
  rw [show "-->".data = '-' :: '-' :: '>' :: ([] : List Char) from rfl] at h1
  simpa using h1

theorem dropCI_open_self (X : List Char) :
    dropCI "<!--".data ('<' :: '!' :: '-' :: '-' :: X) = some X := rfl

theorem dropCI_close_self (X : List Char) :
    dropCI "-->".data ('-' :: '-' :: '>' :: X) = some X := rfl

theorem dropWhile_ws_append {w : List Char} (hw : WsList w) (x : List Char) :
    (w ++ x).dropWhile isPySpace = x.dropWhile isPySpace := by
  induction w with
  | nil => rfl
  | cons c t ih =>
    rw [List.cons_append, List.dropWhile_cons, if_pos (hw c (by simp))]
    exact ih fun d hd => hw d (by simp [hd])

theorem dropWhile_nonws {x : List Char} (hx : nonWsHead x = true) :
    x.dropWhile isPySpace = x := by
  cases x with
  | nil => rfl
  | cons c t =>
    simp only [nonWsHead, List.head?_cons, Option.all_some, Bool.not_eq_true'] at hx
    simp [List.dropWhile_cons, hx]

theorem wsList_takeWhile (cs : List Char) : WsList (cs.takeWhile isPySpace) :=
  fun _ hc => List.mem_takeWhile_imp hc

/-! ## Determinism of the marker pattern for clean names -/

theorem wsStar_det {k : List Char → Option α}
    (hk : ∀ c cs, isPySpace c = true → k (c :: cs) = none) :
    ∀ cs, wsStar k cs = k (cs.dropWhile isPySpace) := by
  intro cs
  induction cs with
  | nil => rfl
  | cons c t ih =>
    by_cases hc : isPySpace c = true
    · rw [wsStar_ws hc, ih, List.dropWhile_cons, if_pos hc]
      cases hkk : k (t.dropWhile isPySpace) with
      | some r => rfl
      | none => rw [hk c t hc]
    · rw [wsStar_nonws (by simpa using hc), List.dropWhile_cons, if_neg hc]

theorem litCI_ws_none {S : List Char} (hS : CleanName S) (K : List Char → Option α) :
    ∀ c cs, isPySpace c = true → litCI S K (c :: cs) = none := by
  obtain ⟨hne, hchars⟩ := hS
  cases S with
  | nil => exact absurd rfl hne
  | cons s0 S0 =>
    intro c cs hc
    cases hl : lowEq s0 c with
    | false => exact litCI_cons_none hl S0 K cs
    | true => exact absurd (lowEq_ws hl hc) (by simp [(hchars s0 (by simp)).1])

theorem litCI_close_ws_none (K : List Char → Option α) :
    ∀ c cs, isPySpace c = true → litCI "-->".data K (c :: cs) = none := by
  intro c cs hc
  rw [show "-->".data = '-' :: "->".data from rfl]
  cases hl : lowEq '-' c with
  | false => exact litCI_cons_none hl "->".data K cs
  | true => exact absurd (lowEq_ws hl hc) (by decide)

theorem markerPat_closed {S : List Char} (hS : CleanName S)
    (k : List Char → Option α) (cs : List Char) :
    markerPat S k cs =
      match markerStrip S cs with
      | some r => k r
      | none => none := by
  have hL : ∀ (pat : List Char) (K : List Char → Option α) (x : List Char),
      litCI pat K x =
        match dropCI pat x with
        | some r => K r
        | none => none := fun _ _ _ => rfl
  rw [markerPat, markerStrip, hL]
  cases h1 : dropCI "<!--".data cs with
  | none => simp
  | some r1 =>
    simp only [Option.some_bind]
    rw [wsStar_det (litCI_ws_none hS _), hL]
    cases h2 : dropCI S (r1.dropWhile isPySpace) with
    | none => simp
    | some r2 =>
      simp only [Option.some_bind]
      rw [wsStar_det (litCI_close_ws_none _), hL]

theorem markerStrip_sound {S cs r : List Char} (h : markerStrip S cs = some r) :
    ∃ w1 S' w2, cs =
      '<' :: '!' :: '-' :: '-' :: (w1 ++ (S' ++ (w2 ++ ('-' :: '-' :: '>' :: r)))) ∧
      WsList w1 ∧ ciEq S S' = true ∧ WsList w2 := by
  unfold markerStrip at h
  cases h1 : dropCI "<!--".data cs with
  | none => rw [h1] at h; simp at h
  | some r1 =>
    rw [h1] at h
    simp only [Option.some_bind] at h
    cases h2 : dropCI S (r1.dropWhile isPySpace) with
    | none => rw [h2] at h; simp at h
    | some r2 =>
      rw [h2] at h
      simp only [Option.some_bind] at h
      refine ⟨r1.takeWhile isPySpace, ?_⟩
      obtain ⟨S', hS1, hS2⟩ := dropCI_sound _ _ h2
      refine ⟨S', r2.takeWhile isPySpace, ?_, wsList_takeWhile r1, hS2, wsList_takeWhile r2⟩
      have hcs := dropCI_open_eq h1
      have hr2cl := dropCI_close_eq h
      have hr2' : r2 = r2.takeWhile isPySpace ++ ('-' :: '-' :: '>' :: r) := by
        conv_lhs => rw [← List.takeWhile_append_dropWhile isPySpace r2]
        rw [hr2cl]
      have hr1' : r1 = r1.takeWhile isPySpace ++
          (S' ++ (r2.takeWhile isPySpace ++ ('-' :: '-' :: '>' :: r))) := by
        conv_lhs => rw [← List.takeWhile_append_dropWhile isPySpace r1]
        rw [hS1]
        conv_lhs => rw [hr2']
      rw [hcs]
      conv_lhs => rw [hr1']

theorem markerStrip_complete {S S' w1 w2 : List Char} (hS : CleanName S)
    (hw1 : WsList w1) (hci : ciEq S S' = true) (hw2 : WsList w2) (tail : List Char) :
    markerStrip S
      ('<' :: '!' :: '-' :: '-' :: (w1 ++ (S' ++ (w2 ++ ('-' :: '-' :: '>' :: tail))))) =
      some tail := by
  have hS'head : nonWsHead (S' ++ (w2 ++ ('-' :: '-' :: '>' :: tail))) = true := by
    obtain ⟨hne, hchars⟩ := hS
    cases S with
    | nil => exact absurd rfl hne
    | cons s0 S0 =>
      cases S' with
      | nil => simp [ciEq] at hci
      | cons s0' S0' =>
        simp only [ciEq, Bool.and_eq_true] at hci
        have : isPySpace s0' = false := by
          cases hsp : isPySpace s0' with
          | false => rfl
          | true => exact absurd (lowEq_ws hci.1 hsp) (by simp [(hchars s0 (by simp)).1])
        simp [nonWsHead, this]
  unfold markerStrip
  rw [dropCI_open_self]
  simp only [Option.some_bind]
  rw [dropWhile_ws_append hw1, dropWhile_nonws hS'head, dropCI_ciEq hci]
  simp only [Option.some_bind]
  rw [dropWhile_ws_append hw2, List.dropWhile_cons, if_neg (by decide), dropCI_close_self]

theorem markerStrip_norm {S : List Char} (hS : CleanName S) (X : List Char) :
    markerStrip S (normMarker S ++ X) = some X := by
  have hshape : normMarker S ++ X =
      '<' :: '!' :: '-' :: '-' :: ([' '] ++ (S ++ ([' '] ++ ('-' :: '-' :: '>' :: X)))) := by
    rw [normMarker, show "<!-- ".data = '<' :: '!' :: '-' :: '-' :: ' ' :: [] from rfl,
      show " -->".data = ' ' :: '-' :: '-' :: '>' :: [] from rfl]
    simp
  rw [hshape]
  exact markerStrip_complete hS
    (by intro c hc; simp at hc; subst hc; decide) (ciEq_refl S)
    (by intro c hc; simp at hc; subst hc; decide) X

theorem markerStrip_suffix {S cs r : List Char} (h : markerStrip S cs = some r) :
    r <:+ cs := by
  obtain ⟨w1, S', w2, hdec, _, _, _⟩ := markerStrip_sound h
  exact ⟨'<' :: '!' :: '-' :: '-' :: (w1 ++ S' ++ w2 ++ ['-', '-', '>']), by simp [hdec]⟩

theorem markerStrip_no_open {e cs : List Char} (h : dropCI "<!--".data cs = none) :
    markerStrip e cs = none := by
  simp [markerStrip, h]

/-! ## Field-level hit lemmas: the first matcher of a chain succeeds -/

theorem applyReimbursement_marker_hit (site : List Char) (cfg : SiteCfg)
    {html t1 out : List Char}
    (hflag : flagYes cfg.reimbFlag = true)
    (hfalsy : falsyText cfg.reimbText = false)
    (htext : cfg.reimbText.getD [] = t1)
    (hm : replace_between_markers html "REIMBURSEMENT_START".data
      "REIMBURSEMENT_END".data t1 = (out, true)) :
    applyReimbursement site cfg html = (out, []) := by
  simp [applyReimbursement, hflag, hfalsy, htext, hm]

theorem applyDataProtection_pair_hit (site : List Char) (cfg : SiteCfg)
    {html t2 out : List Char}
    (hflag : flagYes cfg.dpoFlag = true)
    (hfalsy : falsyText cfg.dpoText = false)
    (htext : cfg.dpoText.getD [] = t2)
    (hm : replace_between_headings html "Verantwortliche".data
      "Rechtsgrundlage".data t2 = (out, true)) :
    applyDataProtection site cfg html = (out, []) := by
  simp [applyDataProtection, hflag, hfalsy, htext, hm]

theorem applyComplaintRights_h2_hit (site : List Char) (cfg : SiteCfg)
    {html t3 out : List Char}
    (hflag : flagYes cfg.complainFlag = true)
    (hfalsy : falsyText cfg.complainText = false)
    (htext : cfg.complainText.getD [] = t3)
    (hm : replace_between_heading_and_h2 html "Beschwerderecht".data
      "Einwilligungserklärung".data t3 = (out, true)) :
    applyComplaintRights site cfg html = (out, []) := by
  simp [applyComplaintRights, hflag, hfalsy, htext, hm]

theorem h3Pre_second {c1 : Char} (h : lowEq 'h' c1 = false) (t : List Char)
    (k : List Char → Option α) (cs : List Char) :
    h3Pre t k ('<' :: c1 :: cs) = none := by
  rw [h3Pre, show "<h3".data = '<' :: 'h' :: '3' :: [] from rfl]
  simp [litCI, dropCI, lowEq_refl, h]

theorem failsOn_single_lt {m : List Char → Option α} {tail : List Char}
    (h0 : ∀ rest, m ('<' :: (tail ++ rest)) = none)
    (hm : ∀ c cs, lowEq '<' c = false → m (c :: cs) = none)
    (htail : LtFree tail) :
    ∀ rest, FailsOn m ('<' :: tail) rest :=
  fun rest => failsOn_cons (h0 rest) (failsOn_ltFree hm htail rest)

/-! ## Span lemmas: a replacement touches one contiguous region only -/

theorem marker_span_core (html s e r : List Char)
    (h : (replace_between_markers html s e r).2 = true) :
    ∃ i j, i ≤ j ∧ j ≤ html.length ∧
      (∀ j', j' < i → markerPairPat s e (html.drop j') = none) ∧
      (replace_between_markers html s e r).1 =
        html.take i ++ normMarker s ++ '\n' :: r ++ '\n' :: normMarker e ++ html.drop j := by
  cases hf : findFrom (markerPairPat s e) html with
  | none => simp [replace_between_markers, hf] at h
  | some q =>
    obtain ⟨i, rest⟩ := q
    obtain ⟨hi, hm⟩ := findFrom_spec _ html i rest hf
    have hsfx1 : rest <:+ html.drop i := markerPairPat_suffix s e _ rest hm
    have hsfx : rest <:+ html := hsfx1.trans (List.drop_suffix i html)
    have hlen : rest.length ≤ html.length - i := by
      have := hsfx1.length_le
      simp [List.length_drop] at this
      omega
    refine ⟨i, html.length - rest.length, by omega, by omega, ?_, ?_⟩
    · exact fun j' hj' => findFrom_leftmost _ html i rest hf j' hj'
    · rw [suffix_eq_drop hsfx]
      simp [replace_between_markers, hf]

theorem marker_notfound (html s e r : List Char)
    (h : (replace_between_markers html s e r).2 = false) :
    (replace_between_markers html s e r).1 = html := by
  cases hf : findFrom (markerPairPat s e) html with
  | none => simp [replace_between_markers, hf]
  | some q =>
    obtain ⟨i, rest⟩ := q
    simp [replace_between_markers, hf] at h

theorem headingCore_span (html r : List Char)
    (pat : List Char → Option (List Char × List Char))
    (hsfx : ∀ cs a, pat cs = some a → a.2 <:+ cs)
    (h : (replaceHeadingCore html pat r).2 = true) :
    ∃ i j, i ≤ j ∧ j ≤ html.length ∧
      (∀ j', j' < i → pat (html.drop j') = none) ∧
      ∃ mid, (replaceHeadingCore html pat r).1 =
        html.take i ++ mid ++ html.drop j := by
  cases hf : findFrom pat html with
  | none => simp [replaceHeadingCore, hf] at h
  | some q =>
    obtain ⟨i, pr⟩ := q
    obtain ⟨restPre, restEnd⟩ := pr
    obtain ⟨hi, hm⟩ := findFrom_spec _ html i (restPre, restEnd) hf
    have hsfx1 : restEnd <:+ html.drop i := hsfx _ _ hm
    have hsfx2 : restEnd <:+ html := hsfx1.trans (List.drop_suffix i html)
    have hlen : restEnd.length ≤ html.length - i := by
      have := hsfx1.length_le
      simp [List.length_drop] at this
      omega
    refine ⟨i, html.length - restEnd.length, by omega, by omega, ?_, ?_⟩
    · exact fun j' hj' => findFrom_leftmost _ html i (restPre, restEnd) hf j' hj'
    · refine ⟨(html.drop i).take (html.length - restPre.length - i) ++ r ++ ['\n'], ?_⟩
      rw [suffix_eq_drop hsfx2]
      simp [replaceHeadingCore, hf]

theorem headingCore_notfound (html r : List Char)
    (pat : List Char → Option (List Char × List Char))
    (h : (replaceHeadingCore html pat r).2 = false) :
    (replaceHeadingCore html pat r).1 = html := by
  cases hf : findFrom pat html with
  | none => simp [replaceHeadingCore, hf]
  | some q =>
    obtain ⟨i, pr⟩ := q
    obtain ⟨restPre, restEnd⟩ := pr
    simp [replaceHeadingCore, hf] at h

/-! ## Claim theorems -/

/-- C1: whenever the marker-delimited matcher reports success, the output
document consists of an untouched prefix of the input, the normalized
start comment, a newline, exactly the replacement text, a newline, the
normalized end comment, and an untouched suffix of the input. -/
theorem C1_marker_replacement_exact (html s e r : List Char)
    (h : (replace_between_markers html s e r).2 = true) :
    ∃ i j, i ≤ j ∧ j ≤ html.length ∧
      (replace_between_markers html s e r).1 =
        html.take i ++ normMarker s ++ '\n' :: r ++ '\n' :: normMarker e ++ html.drop j := by
  obtain ⟨i, j, h1, h2, _, h4⟩ := marker_span_core html s e r h
  exact ⟨i, j, h1, h2, h4⟩

/-- C1 witness: the spec scenario, run on the concrete template consisting
of the two adjacent reimbursement markers with replacement text X; the
exact output of the scenario is also checked. -/
theorem C1_marker_replacement_exact_witness :
    (replace_between_markers
      "<!-- REIMBURSEMENT_START --><!-- REIMBURSEMENT_END -->".data
      "REIMBURSEMENT_START".data "REIMBURSEMENT_END".data "X".data).2 = true ∧
    (∃ i j, i ≤ j ∧
      j ≤ "<!-- REIMBURSEMENT_START --><!-- REIMBURSEMENT_END -->".data.length ∧
      (replace_between_markers
        "<!-- REIMBURSEMENT_START --><!-- REIMBURSEMENT_END -->".data
        "REIMBURSEMENT_START".data "REIMBURSEMENT_END".data "X".data).1 =
        "<!-- REIMBURSEMENT_START --><!-- REIMBURSEMENT_END -->".data.take i ++
          normMarker "REIMBURSEMENT_START".data ++ '\n' :: "X".data ++
          '\n' :: normMarker "REIMBURSEMENT_END".data ++
          "<!-- REIMBURSEMENT_START --><!-- REIMBURSEMENT_END -->".data.drop j) ∧
    (replace_between_markers
      "<!-- REIMBURSEMENT_START --><!-- REIMBURSEMENT_END -->".data
      "REIMBURSEMENT_START".data "REIMBURSEMENT_END".data "X".data).1 =
      "<!-- REIMBURSEMENT_START -->\nX\n<!-- REIMBURSEMENT_END -->".data :=
  ⟨by decide, C1_marker_replacement_exact _ _ _ _ (by decide), by decide⟩

/-- C8: each of the four matchers replaces at most one contiguous region,
at the leftmost position where its pattern matches (every strictly earlier
position admits no match), leaving the prefix before the match and the
suffix after it byte-identical; when the pattern does not occur the input
is returned unchanged together with the not-found flag. -/
theorem C8_first_match_only (html s e hd hs he hfrag r : List Char) :
    ((replace_between_markers html s e r).2 = true →
      ∃ i j, i ≤ j ∧ j ≤ html.length ∧
        (∀ j', j' < i → markerPairPat s e (html.drop j') = none) ∧
        ∃ mid, (replace_between_markers html s e r).1 =
          html.take i ++ mid ++ html.drop j) ∧
    ((replace_between_markers html s e r).2 = false →
      (replace_between_markers html s e r).1 = html) ∧
    ((replace_section_after_heading html hd r).2 = true →
      ∃ i j, i ≤ j ∧ j ≤ html.length ∧
        (∀ j', j' < i → sectionPat hd (html.drop j') = none) ∧
        ∃ mid, (replace_section_after_heading html hd r).1 =
          html.take i ++ mid ++ html.drop j) ∧
    ((replace_section_after_heading html hd r).2 = false →
      (replace_section_after_heading html hd r).1 = html) ∧
    ((replace_between_headings html hs he r).2 = true →
      ∃ i j, i ≤ j ∧ j ≤ html.length ∧
        (∀ j', j' < i → headingPairPat hs he (html.drop j') = none) ∧
        ∃ mid, (replace_between_headings html hs he r).1 =
          html.take i ++ mid ++ html.drop j) ∧
    ((replace_between_headings html hs he r).2 = false →
      (replace_between_headings html hs he r).1 = html) ∧
    ((replace_between_heading_and_h2 html hs hfrag r).2 = true →
      ∃ i j, i ≤ j ∧ j ≤ html.length ∧
        (∀ j', j' < i → headingH2Pat hs hfrag (html.drop j') = none) ∧
        ∃ mid, (replace_between_heading_and_h2 html hs hfrag r).1 =
          html.take i ++ mid ++ html.drop j) ∧
    ((replace_between_heading_and_h2 html hs hfrag r).2 = false →
      (replace_between_heading_and_h2 html hs hfrag r).1 = html) := by
  refine ⟨?_, marker_notfound html s e r, ?_, ?_, ?_, ?_, ?_, ?_⟩
  · intro h
    obtain ⟨i, j, h1, h2, h3, h4⟩ := marker_span_core html s e r h
    exact ⟨i, j, h1, h2, h3,
      normMarker s ++ '\n' :: r ++ '\n' :: normMarker e, by simpa using h4⟩
  · exact headingCore_span html r _ (sectionPat_suffix hd)
  · exact headingCore_notfound html r _
  · exact headingCore_span html r _ (headingPairPat_suffix hs he)
  · exact headingCore_notfound html r _
  · exact headingCore_span html r _ (headingH2Pat_suffix hs hfrag)
  · exact headingCore_notfound html r _

/-- C8 witness: the eight implications instantiated at concrete inputs: a
document containing a marker pair, a section heading, a heading pair and a
heading before a level two heading, plus a plain-text document where every
matcher reports not-found and returns the input unchanged. -/
theorem C8_first_match_only_witness :
    (∃ i j, i ≤ j ∧
      j ≤ "<!-- S -->x<!-- E --><h3>H</h3>p<h3>K</h3>q<h2>F</h2>".data.length ∧
      (∀ j', j' < i →
        markerPairPat "S".data "E".data
          ("<!-- S -->x<!-- E --><h3>H</h3>p<h3>K</h3>q<h2>F</h2>".data.drop j') = none) ∧
      ∃ mid, (replace_between_markers
          "<!-- S -->x<!-- E --><h3>H</h3>p<h3>K</h3>q<h2>F</h2>".data
          "S".data "E".data "R".data).1 =
        "<!-- S -->x<!-- E --><h3>H</h3>p<h3>K</h3>q<h2>F</h2>".data.take i ++ mid ++
          "<!-- S -->x<!-- E --><h3>H</h3>p<h3>K</h3>q<h2>F</h2>".data.drop j) ∧
    (∃ i j, i ≤ j ∧
      j ≤ "<!-- S -->x<!-- E --><h3>H</h3>p<h3>K</h3>q<h2>F</h2>".data.length ∧
      (∀ j', j' < i →
        sectionPat "H".data
          ("<!-- S -->x<!-- E --><h3>H</h3>p<h3>K</h3>q<h2>F</h2>".data.drop j') = none) ∧
      ∃ mid, (replace_section_after_heading
          "<!-- S -->x<!-- E --><h3>H</h3>p<h3>K</h3>q<h2>F</h2>".data
          "H".data "R".data).1 =
        "<!-- S -->x<!-- E --><h3>H</h3>p<h3>K</h3>q<h2>F</h2>".data.take i ++ mid ++
          "<!-- S -->x<!-- E --><h3>H</h3>p<h3>K</h3>q<h2>F</h2>".data.drop j) ∧
    (∃ i j, i ≤ j ∧
      j ≤ "<!-- S -->x<!-- E --><h3>H</h3>p<h3>K</h3>q<h2>F</h2>".data.length ∧
      (∀ j', j' < i →
        headingPairPat "H".data "K".data
          ("<!-- S -->x<!-- E --><h3>H</h3>p<h3>K</h3>q<h2>F</h2>".data.drop j') = none) ∧
      ∃ mid, (replace_between_headings
          "<!-- S -->x<!-- E --><h3>H</h3>p<h3>K</h3>q<h2>F</h2>".data
          "H".data "K".data "R".data).1 =
        "<!-- S -->x<!-- E --><h3>H</h3>p<h3>K</h3>q<h2>F</h2>".data.take i ++ mid ++
          "<!-- S -->x<!-- E --><h3>H</h3>p<h3>K</h3>q<h2>F</h2>".data.drop j) ∧
    (∃ i j, i ≤ j ∧
      j ≤ "<!-- S -->x<!-- E --><h3>H</h3>p<h3>K</h3>q<h2>F</h2>".data.length ∧
      (∀ j', j' < i →
        headingH2Pat "H".data "F".data
          ("<!-- S -->x<!-- E --><h3>H</h3>p<h3>K</h3>q<h2>F</h2>".data.drop j') = none) ∧
      ∃ mid, (replace_between_heading_and_h2
          "<!-- S -->x<!-- E --><h3>H</h3>p<h3>K</h3>q<h2>F</h2>".data
          "H".data "F".data "R".data).1 =
        "<!-- S -->x<!-- E --><h3>H</h3>p<h3>K</h3>q<h2>F</h2>".data.take i ++ mid ++
          "<!-- S -->x<!-- E --><h3>H</h3>p<h3>K</h3>q<h2>F</h2>".data.drop j) ∧
    (replace_between_markers "plain text".data "S".data "E".data "R".data).1 =
      "plain text".data ∧
    (replace_section_after_heading "plain text".data "H".data "R".data).1 =
      "plain text".data ∧
    (replace_between_headings "plain text".data "H".data "K".data "R".data).1 =
      "plain text".data ∧
    (replace_between_heading_and_h2 "plain text".data "H".data "F".data "R".data).1 =
      "plain text".data :=
  ⟨(C8_first_match_only "<!-- S -->x<!-- E --><h3>H</h3>p<h3>K</h3>q<h2>F</h2>".data
      "S".data "E".data "H".data "H".data "K".data "F".data "R".data).1 (by decide),
   (C8_first_match_only "<!-- S -->x<!-- E --><h3>H</h3>p<h3>K</h3>q<h2>F</h2>".data
      "S".data "E".data "H".data "H".data "K".data "F".data "R".data).2.2.1 (by decide),
   (C8_first_match_only "<!-- S -->x<!-- E --><h3>H</h3>p<h3>K</h3>q<h2>F</h2>".data
      "S".data "E".data "H".data "H".data "K".data "F".data "R".data).2.2.2.2.1 (by decide),
   (C8_first_match_only "<!-- S -->x<!-- E --><h3>H</h3>p<h3>K</h3>q<h2>F</h2>".data
      "S".data "E".data "H".data "H".data "K".data "F".data "R".data).2.2.2.2.2.2.1 (by decide),
   (C8_first_match_only "plain text".data
      "S".data "E".data "H".data "H".data "K".data "F".data "R".data).2.1 (by decide),
   (C8_first_match_only "plain text".data
      "S".data "E".data "H".data "H".data "K".data "F".data "R".data).2.2.2.1 (by decide),
   (C8_first_match_only "plain text".data
      "S".data "E".data "H".data "H".data "K".data "F".data "R".data).2.2.2.2.2.1 (by decide),
   (C8_first_match_only "plain text".data
      "S".data "E".data "H".data "H".data "K".data "F".data "R".data).2.2.2.2.2.2.2 (by decide)⟩

/-- C2: when the reimbursement field is active with a non-empty text and
the marker pair matches, the field result is exactly the marker matcher
output, even if the heading fallback pattern would also match; the
fallback is never consulted. -/
theorem C2_marker_priority (site : List Char) (cfg : SiteCfg) (html : List Char)
    (h1 : flagYes cfg.reimbFlag = true)
    (h2 : falsyText cfg.reimbText = false)
    (h3 : (replace_between_markers html "REIMBURSEMENT_START".data
      "REIMBURSEMENT_END".data (cfg.reimbText.getD [])).2 = true)
    (h4 : (replace_section_after_heading html "Aufwandsentschädigung".data
      (cfg.reimbText.getD [])).2 = true) :
    applyReimbursement site cfg html =
      ((replace_between_markers html "REIMBURSEMENT_START".data
        "REIMBURSEMENT_END".data (cfg.reimbText.getD [])).1, []) := by
  simp [applyReimbursement, h1, h2, h3]

/-- C2 witness: a document satisfying both the reimbursement marker pair
and the reimbursement heading fallback pattern; the marker result wins. -/
theorem C2_marker_priority_witness :
    applyReimbursement "berlin".data
      ⟨some (ConfigVal.str "yes".data), some "T".data, none, none, none, none⟩
      "<!-- REIMBURSEMENT_START -->a<!-- REIMBURSEMENT_END --><h3>Aufwandsentschädigung</h3>b".data =
      ((replace_between_markers
        "<!-- REIMBURSEMENT_START -->a<!-- REIMBURSEMENT_END --><h3>Aufwandsentschädigung</h3>b".data
        "REIMBURSEMENT_START".data "REIMBURSEMENT_END".data
        ((some "T".data).getD [])).1, []) :=
  C2_marker_priority "berlin".data
    ⟨some (ConfigVal.str "yes".data), some "T".data, none, none, none, none⟩
    "<!-- REIMBURSEMENT_START -->a<!-- REIMBURSEMENT_END --><h3>Aufwandsentschädigung</h3>b".data
    (by decide) (by decide) (by decide) (by decide)

/-- C3: whichever field is active with a missing or empty replacement
text, that field emits exactly one warning naming the site and field and
leaves the document untouched, with no matcher invoked and no hypothesis
about the other fields; and the batch driver never halts on this
condition: a non-sentinel site always yields exactly one generated and
counted output document, whatever its configuration. -/
theorem C3_missing_text_warning (site : List Char) (cfg : SiteCfg) (tmpl : List Char) :
    (flagYes cfg.reimbFlag = true → falsyText cfg.reimbText = true →
      applyReimbursement site cfg tmpl =
        (tmpl, [Warn.missingText site FieldTag.reimbursement])) ∧
    (flagYes cfg.dpoFlag = true → falsyText cfg.dpoText = true →
      applyDataProtection site cfg tmpl =
        (tmpl, [Warn.missingText site FieldTag.dataProtection])) ∧
    (flagYes cfg.complainFlag = true → falsyText cfg.complainText = true →
      applyComplaintRights site cfg tmpl =
        (tmpl, [Warn.missingText site FieldTag.complaintRights])) ∧
    (ciEq site "default".data = false →
      runBatch tmpl [(site, cfg)] =
        ([(site, (perform_conditional_replacements site cfg tmpl).1)], 1, 0)) := by
  refine ⟨fun h1 h2 => ?_, fun h1 h2 => ?_, fun h1 h2 => ?_, fun h5 => ?_⟩
  · simp [applyReimbursement, h1, h2]
  · simp [applyDataProtection, h1, h2]
  · simp [applyComplaintRights, h1, h2]
  · simp [runBatch, h5]

/-- C3 witness: all three flags yes with all three text keys absent; each
field block emits its one warning and passes the document through, the
whole policy leaves the document unchanged, and the one-entry batch still
generates and counts the output. -/
theorem C3_missing_text_warning_witness :
    applyReimbursement "bonn".data
      ⟨some (ConfigVal.str "yes".data), none, some (ConfigVal.str "yes".data), none,
       some (ConfigVal.str "yes".data), none⟩ "doc".data =
      ("doc".data, [Warn.missingText "bonn".data FieldTag.reimbursement]) ∧
    applyDataProtection "bonn".data
      ⟨some (ConfigVal.str "yes".data), none, some (ConfigVal.str "yes".data), none,
       some (ConfigVal.str "yes".data), none⟩ "doc".data =
      ("doc".data, [Warn.missingText "bonn".data FieldTag.dataProtection]) ∧
    applyComplaintRights "bonn".data
      ⟨some (ConfigVal.str "yes".data), none, some (ConfigVal.str "yes".data), none,
       some (ConfigVal.str "yes".data), none⟩ "doc".data =
      ("doc".data, [Warn.missingText "bonn".data FieldTag.complaintRights]) ∧
    runBatch "doc".data
      [("bonn".data, ⟨some (ConfigVal.str "yes".data), none, some (ConfigVal.str "yes".data),
        none, some (ConfigVal.str "yes".data), none⟩)] =
      ([("bonn".data, (perform_conditional_replacements "bonn".data
        ⟨some (ConfigVal.str "yes".data), none, some (ConfigVal.str "yes".data), none,
         some (ConfigVal.str "yes".data), none⟩ "doc".data).1)], 1, 0) ∧
    (perform_conditional_replacements "bonn".data
      ⟨some (ConfigVal.str "yes".data), none, some (ConfigVal.str "yes".data), none,
       some (ConfigVal.str "yes".data), none⟩ "doc".data).1 = "doc".data :=
  ⟨(C3_missing_text_warning "bonn".data
      ⟨some (ConfigVal.str "yes".data), none, some (ConfigVal.str "yes".data), none,
       some (ConfigVal.str "yes".data), none⟩ "doc".data).1 (by decide) (by decide),
   (C3_missing_text_warning "bonn".data
      ⟨some (ConfigVal.str "yes".data), none, some (ConfigVal.str "yes".data), none,
       some (ConfigVal.str "yes".data), none⟩ "doc".data).2.1 (by decide) (by decide),
   (C3_missing_text_warning "bonn".data
      ⟨some (ConfigVal.str "yes".data), none, some (ConfigVal.str "yes".data), none,
       some (ConfigVal.str "yes".data), none⟩ "doc".data).2.2.1 (by decide) (by decide),
   (C3_missing_text_warning "bonn".data
      ⟨some (ConfigVal.str "yes".data), none, some (ConfigVal.str "yes".data), none,
       some (ConfigVal.str "yes".data), none⟩ "doc".data).2.2.2 (by decide),
   by decide⟩

/-- C4: whichever field is active with a usable replacement text, if every
matcher of that field's own chain reports not-found on the document, the
field leaves the document unchanged and emits exactly one region-not-found
warning naming the site and field; no hypothesis is made about the other
fields, and no exception can arise since the policy is a total function. -/
theorem C4_region_not_found (site : List Char) (cfg : SiteCfg) (html : List Char) :
    (flagYes cfg.reimbFlag = true → falsyText cfg.reimbText = false →
      (replace_between_markers html "REIMBURSEMENT_START".data
        "REIMBURSEMENT_END".data (cfg.reimbText.getD [])).2 = false →
      (replace_section_after_heading html "Aufwandsentschädigung".data
        (cfg.reimbText.getD [])).2 = false →
      applyReimbursement site cfg html =
        (html, [Warn.regionNotFound site FieldTag.reimbursement])) ∧
    (flagYes cfg.dpoFlag = true → falsyText cfg.dpoText = false →
      (replace_between_headings html "Verantwortliche".data
        "Rechtsgrundlage".data (cfg.dpoText.getD [])).2 = false →
      (replace_between_markers html "DPO_START".data "DPO_END".data
        (cfg.dpoText.getD [])).2 = false →
      (replace_section_after_heading html "Verantwortliche".data
        (cfg.dpoText.getD [])).2 = false →
      applyDataProtection site cfg html =
        (html, [Warn.regionNotFound site FieldTag.dataProtection])) ∧
    (flagYes cfg.complainFlag = true → falsyText cfg.complainText = false →
      (replace_between_heading_and_h2 html "Beschwerderecht".data
        "Einwilligungserklärung".data (cfg.complainText.getD [])).2 = false →
      (replace_between_markers html "COMPLAIN_START".data "COMPLAIN_END".data
        (cfg.complainText.getD [])).2 = false →
      (replace_section_after_heading html "Beschwerderecht".data
        (cfg.complainText.getD [])).2 = false →
      applyComplaintRights site cfg html =
        (html, [Warn.regionNotFound site FieldTag.complaintRights])) := by
  refine ⟨fun hf ht m1 m2 => ?_, fun hf ht m1 m2 m3 => ?_, fun hf ht m1 m2 m3 => ?_⟩
  · simp [applyReimbursement, hf, ht, m1, m2]
  · simp [applyDataProtection, hf, ht, m1, m2, m3]
  · simp [applyComplaintRights, hf, ht, m1, m2, m3]

/-- C4 witness: first on a document that carries the data protection
heading pair but no reimbursement anchors, so the reimbursement chain
fails and warns even though another field's pattern is present; then on a
plain document where each of the three chains fails. -/
theorem C4_region_not_found_witness :
    applyReimbursement "koeln".data
      ⟨some (ConfigVal.str "yes".data), some "T".data,
       some (ConfigVal.str "yes".data), some "T".data,
       some (ConfigVal.str "yes".data), some "T".data⟩
      "<h3>Verantwortliche</h3>m<h3>Rechtsgrundlage</h3>".data =
      ("<h3>Verantwortliche</h3>m<h3>Rechtsgrundlage</h3>".data,
        [Warn.regionNotFound "koeln".data FieldTag.reimbursement]) ∧
    applyReimbursement "koeln".data
      ⟨some (ConfigVal.str "yes".data), some "T".data,
       some (ConfigVal.str "yes".data), some "T".data,
       some (ConfigVal.str "yes".data), some "T".data⟩ "plain".data =
      ("plain".data, [Warn.regionNotFound "koeln".data FieldTag.reimbursement]) ∧
    applyDataProtection "koeln".data
      ⟨some (ConfigVal.str "yes".data), some "T".data,
       some (ConfigVal.str "yes".data), some "T".data,
       some (ConfigVal.str "yes".data), some "T".data⟩ "plain".data =
      ("plain".data, [Warn.regionNotFound "koeln".data FieldTag.dataProtection]) ∧
    applyComplaintRights "koeln".data
      ⟨some (ConfigVal.str "yes".data), some "T".data,
       some (ConfigVal.str "yes".data), some "T".data,
       some (ConfigVal.str "yes".data), some "T".data⟩ "plain".data =
      ("plain".data, [Warn.regionNotFound "koeln".data FieldTag.complaintRights]) :=
  ⟨(C4_region_not_found "koeln".data
      ⟨some (ConfigVal.str "yes".data), some "T".data,
       some (ConfigVal.str "yes".data), some "T".data,
       some (ConfigVal.str "yes".data), some "T".data⟩
      "<h3>Verantwortliche</h3>m<h3>Rechtsgrundlage</h3>".data).1
    (by decide) (by decide) (by decide) (by decide),
   (C4_region_not_found "koeln".data
      ⟨some (ConfigVal.str "yes".data), some "T".data,
       some (ConfigVal.str "yes".data), some "T".data,
       some (ConfigVal.str "yes".data), some "T".data⟩ "plain".data).1
    (by decide) (by decide) (by decide) (by decide),
   (C4_region_not_found "koeln".data
      ⟨some (ConfigVal.str "yes".data), some "T".data,
       some (ConfigVal.str "yes".data), some "T".data,
       some (ConfigVal.str "yes".data), some "T".data⟩ "plain".data).2.1
    (by decide) (by decide) (by decide) (by decide) (by decide),
   (C4_region_not_found "koeln".data
      ⟨some (ConfigVal.str "yes".data), some "T".data,
       some (ConfigVal.str "yes".data), some "T".data,
       some (ConfigVal.str "yes".data), some "T".data⟩ "plain".data).2.2
    (by decide) (by decide) (by decide) (by decide) (by decide)⟩

/-- C7: the batch driver skips exactly the entries whose key lowercases to
the sentinel word default: they produce no output and are counted in
neither total; every other entry yields exactly one output document built
from the shared template and increments the generated count; the skipped
count is always zero. -/
theorem C7_default_sentinel_skip (tmpl : List Char)
    (entries : List (List Char × SiteCfg)) :
    (runBatch tmpl entries).2.2 = 0 ∧
    (runBatch tmpl entries).2.1 =
      (entries.filter fun p => !ciEq p.1 "default".data).length ∧
    (runBatch tmpl entries).1 =
      (entries.filter fun p => !ciEq p.1 "default".data).map
        fun p => (p.1, (perform_conditional_replacements p.1 p.2 tmpl).1) := by
  induction entries with
  | nil => exact ⟨rfl, rfl, rfl⟩
  | cons hd tl ih =>
    obtain ⟨site, cfg⟩ := hd
    by_cases hc : ciEq site "default".data = true
    · simpa [runBatch, hc, List.filter_cons] using ih
    · simp only [Bool.not_eq_true] at hc
      simp [runBatch, hc, List.filter_cons, ih.1, ih.2.1, ih.2.2]

/-- C9: the matchers treat anchors as literal text, not as regex patterns:
an anchor A.B with a metacharacter dot matches only the literal characters
A dot B, so it does not match AXB in any of the four matchers, while it
does match a literal A.B occurrence. -/
theorem C9_anchors_are_literal :
    replace_between_markers "<!-- AXB -->u<!-- E -->".data "A.B".data "E".data "R".data =
      ("<!-- AXB -->u<!-- E -->".data, false) ∧
    replace_between_markers "<!-- A.B -->u<!-- E -->".data "A.B".data "E".data "R".data =
      ("<!-- A.B -->\nR\n<!-- E -->".data, true) ∧
    replace_section_after_heading "<h3>AXB</h3>old".data "A.B".data "R".data =
      ("<h3>AXB</h3>old".data, false) ∧
    replace_section_after_heading "<h3>A.B</h3>old".data "A.B".data "R".data =
      ("<h3>A.B</h3>R\n".data, true) ∧
    replace_between_headings "<h3>S</h3>m<h3>AXB</h3>".data "S".data "A.B".data "R".data =
      ("<h3>S</h3>m<h3>AXB</h3>".data, false) ∧
    replace_between_headings "<h3>S</h3>m<h3>A.B</h3>".data "S".data "A.B".data "R".data =
      ("<h3>S</h3>R\n<h3>A.B</h3>".data, true) ∧
    replace_between_heading_and_h2 "<h3>S</h3>m<h2>AXB</h2>".data "S".data "A.B".data "R".data =
      ("<h3>S</h3>m<h2>AXB</h2>".data, false) ∧
    replace_between_heading_and_h2 "<h3>S</h3>m<h2>A.B</h2>".data "S".data "A.B".data "R".data =
      ("<h3>S</h3>R\n<h2>A.B</h2>".data, true) := by
  decide

/-- C6 counterexample: marker replacement is not idempotent for every
replacement text.  With markers A and B and replacement text that itself
contains an end-marker comment, the second application matches the
end-marker inside the previously inserted text and changes the document
again. -/
theorem C6_idempotence_counterexample :
    (replace_between_markers
      (replace_between_markers "<!-- A --><!-- B -->".data
        "A".data "B".data "<!-- B -->".data).1
      "A".data "B".data "<!-- B -->".data).1 ≠
    (replace_between_markers "<!-- A --><!-- B -->".data
      "A".data "B".data "<!-- B -->".data).1 := by
  decide

/-! ## General idempotence machinery for the marker replacement -/

theorem lazyStar_drop_fails {k : List Char → Option α} :
    ∀ (A B : List Char), (∀ j, j < A.length → k ((A ++ B).drop j) = none) →
      lazyStar k (A ++ B) = lazyStar k B := by
  intro A
  induction A with
  | nil => intro B _; rfl
  | cons c A ih =>
    intro B h
    have h0 : k (c :: (A ++ B)) = none := by simpa using h 0 (by simp)
    rw [List.cons_append, lazyStar_cons, h0]
    exact ih B fun j hj => by simpa using h (j + 1) (by simp; omega)

theorem lazyStar_sound {k : List Char → Option α} :
    ∀ cs a, lazyStar k cs = some a → ∃ u, u <:+ cs ∧ k u = some a := by
  intro cs
  induction cs with
  | nil => intro a h; exact ⟨[], List.suffix_rfl, h⟩
  | cons c cs ih =>
    intro a h
    rw [lazyStar_cons] at h
    cases hk : k (c :: cs) with
    | some b =>
      have h' : some b = some a := by rw [hk] at h; exact h
      obtain rfl := Option.some.inj h'
      exact ⟨c :: cs, List.suffix_rfl, hk⟩
    | none =>
      have h' : lazyStar k cs = some a := by rw [hk] at h; exact h
      obtain ⟨u, hu1, hu2⟩ := ih a h'
      exact ⟨u, hu1.trans (List.suffix_cons c cs), hu2⟩

theorem lazyStar_isSome {k : List Char → Option α} {u : List Char} {a : α}
    (hk : k u = some a) : ∀ cs, u <:+ cs → ∃ b, lazyStar k cs = some b := by
  intro cs
  induction cs with
  | nil =>
    intro h
    have hu : u = [] := List.suffix_nil.mp h
    subst hu
    exact ⟨a, hk⟩
  | cons c cs ih =>
    intro h
    rcases List.suffix_cons_iff.mp h with h1 | h1
    · subst h1
      exact ⟨a, lazyStar_here hk⟩
    · obtain ⟨b, hb⟩ := ih h1
      rw [lazyStar_cons]
      cases hkc : k (c :: cs) with
      | some x => exact ⟨x, rfl⟩
      | none => exact ⟨b, hb⟩

theorem failsOn_of_pointwise {m : List Char → Option α} :
    ∀ (p rest : List Char), (∀ j, j < p.length → m ((p ++ rest).drop j) = none) →
      FailsOn m p rest := by
  intro p
  induction p with
  | nil => intro rest _; exact failsOn_nil m rest
  | cons c p ih =>
    intro rest h
    exact ⟨by simpa using h 0 (by simp),
      ih rest fun j hj => by simpa using h (j + 1) (by simp; omega)⟩

theorem hasOpen_drop : ∀ {r : List Char}, hasOpen r = false →
    ∀ i, dropCI "<!--".data (r.drop i) = none := by
  intro r
  induction r with
  | nil => intro _ i; cases i <;> rfl
  | cons c cs ih =>
    intro h i
    rw [hasOpen, Bool.or_eq_false_iff] at h
    cases i with
    | zero =>
      simp only [List.drop_zero]
      cases hd : dropCI "<!--".data (c :: cs) with
      | none => rfl
      | some x =>
        have h1 := h.1
        rw [leadsCI, hd] at h1
        simp at h1
    | succ i => simpa using ih h.2 i

theorem dropCI_open_cons_none {c : Char} (h : lowEq '<' c = false) (xs : List Char) :
    dropCI "<!--".data (c :: xs) = none := by
  rw [show "<!--".data = '<' :: "!--".data from rfl]
  simp [dropCI, h]

theorem dropCI_nl_barrier : ∀ (pat : List Char), (∀ p ∈ pat, lowEq p '\n' = false) →
    ∀ r T, dropCI pat r = none → dropCI pat (r ++ '\n' :: T) = none := by
  intro pat
  induction pat with
  | nil => intro _ r T h; simp [dropCI] at h
  | cons p ps ih =>
    intro hpat r T h
    cases r with
    | nil => simp [dropCI, hpat p (by simp)]
    | cons c r2 =>
      rw [List.cons_append]
      by_cases hl : lowEq p c = true
      · simp only [dropCI, hl, if_true] at h ⊢
        exact ih (fun q hq => hpat q (by simp [hq])) r2 T h
      · simp [dropCI, hl]

theorem open_fails {r : List Char} (hr : hasOpen r = false) (T : List Char) :
    ∀ j, j < (('\n' :: r) ++ ['\n']).length →
      dropCI "<!--".data (((('\n' :: r) ++ ['\n']) ++ T).drop j) = none := by
  intro j hj
  have hform : ((('\n' :: r) ++ ['\n']) ++ T) = '\n' :: (r ++ '\n' :: T) := by simp
  rw [hform]
  cases j with
  | zero =>
    simp only [List.drop_zero]
    exact dropCI_open_cons_none (by decide) _
  | succ j =>
    simp only [List.drop_succ_cons]
    have hj2 : j ≤ r.length := by
      simp only [List.length_append, List.length_cons, List.length_nil] at hj
      omega
    rw [List.drop_append_of_le_length hj2]
    exact dropCI_nl_barrier "<!--".data (by decide) _ T (hasOpen_drop hr j)

theorem markerPat_no_open {e cs : List Char} (he : CleanName e)
    (h : dropCI "<!--".data cs = none) : markerPat e some cs = none := by
  rw [markerPat_closed he, markerStrip_no_open h]

theorem no_lt_in_tail {s S' w1 w2 : List Char} (hs : CleanName s)
    (hw1 : WsList w1) (hS' : ciEq s S' = true) (hw2 : WsList w2) :
    ('<' : Char) ∉ ('!' :: '-' :: '-' :: (w1 ++ (S' ++ (w2 ++ ['-', '-', '>'])))) := by
  intro hmem
  simp only [List.mem_cons, List.mem_append] at hmem
  rcases hmem with h | h | h | h | h | h | h
  · exact absurd h (by decide)
  · exact absurd h (by decide)
  · exact absurd h (by decide)
  · exact absurd (hw1 _ h) (by decide)
  · obtain ⟨d, hd1, hd2⟩ := ciEq_mem hS' h
    have hclean := (hs.2 d hd1).2.2
    rw [lowEq_symm] at hd2
    rw [hclean] at hd2
    exact Bool.noConfusion hd2
  · exact absurd (hw2 _ h) (by decide)
  · exact absurd h (by decide)

/-- C6 amended: the marker replacement is idempotent on every document, for
clean marker names, as long as the replacement text contains no comment
opener.  The second application then locates exactly the block inserted by
the first and rewrites it to the same bytes; the counterexample above shows
the restriction on the replacement text is necessary. -/
theorem C6_idempotent_amended (html s e r : List Char)
    (hs : CleanName s) (he : CleanName e) (hr : hasOpen r = false) :
    replace_between_markers (replace_between_markers html s e r).1 s e r =
      replace_between_markers html s e r := by
  cases hf : findFrom (markerPairPat s e) html with
  | none =>
    have h0 : replace_between_markers html s e r = (html, false) := by
      simp [replace_between_markers, hf]
    rw [h0]
    exact h0
  | some q =>
    obtain ⟨i, rest⟩ := q
    have hspec := findFrom_spec (markerPairPat s e) html i rest hf
    have hi : i ≤ html.length := hspec.1
    have hpre_len : (html.take i).length = i := by
      rw [List.length_take]
      omega
    have hD0 := hspec.2
    rw [markerPairPat, markerPat_closed hs] at hD0
    cases hms : markerStrip s (html.drop i) with
    | none => rw [hms] at hD0; simp at hD0
    | some t0 =>
      rw [hms] at hD0
      have hD : lazyStar (markerPat e some) t0 = some rest := hD0
      obtain ⟨u, hu_suff, hu⟩ := lazyStar_sound t0 rest hD
      have ht0_suff : t0 <:+ html.drop i := markerStrip_suffix hms
      have hout : replace_between_markers html s e r =
          (html.take i ++ (normMarker s ++ (('\n' :: r) ++ ('\n' :: (normMarker e ++ rest)))),
            true) := by
        simp [replace_between_markers, hf]
      have hA : markerPairPat s e
          (normMarker s ++ (('\n' :: r) ++ ('\n' :: (normMarker e ++ rest)))) = some rest := by
        rw [markerPairPat, markerPat_closed hs, markerStrip_norm hs]
        show lazyStar (markerPat e some)
          (('\n' :: r) ++ ('\n' :: (normMarker e ++ rest))) = some rest
        have hptw : ∀ j, j < (('\n' :: r) ++ ['\n']).length →
            markerPat e some
              (((('\n' :: r) ++ ['\n']) ++ (normMarker e ++ rest)).drop j) = none :=
          fun j hj => markerPat_no_open he (open_fails hr (normMarker e ++ rest) j hj)
        have hsplit : ('\n' :: r) ++ ('\n' :: (normMarker e ++ rest)) =
            (('\n' :: r) ++ ['\n']) ++ (normMarker e ++ rest) := by simp
        rw [hsplit, lazyStar_drop_fails (('\n' :: r) ++ ['\n']) (normMarker e ++ rest) hptw]
        exact lazyStar_here (by rw [markerPat_closed he, markerStrip_norm he])
      have hptw_pre : ∀ j, j < (html.take i).length →
          markerPairPat s e
            ((html.take i ++
              (normMarker s ++ (('\n' :: r) ++ ('\n' :: (normMarker e ++ rest))))).drop j) =
            none := by
        intro j hj
        have hj2 : j < i := by rwa [hpre_len] at hj
        have hdropform :
            (html.take i ++
              (normMarker s ++ (('\n' :: r) ++ ('\n' :: (normMarker e ++ rest))))).drop j =
              (html.take i).drop j ++
                (normMarker s ++ (('\n' :: r) ++ ('\n' :: (normMarker e ++ rest)))) :=
          List.drop_append_of_le_length (by omega)
        rw [hdropform, markerPairPat, markerPat_closed hs]
        cases hms2 : markerStrip s
            ((html.take i).drop j ++
              (normMarker s ++ (('\n' :: r) ++ ('\n' :: (normMarker e ++ rest))))) with
        | none => rfl
        | some t =>
          exfalso
          obtain ⟨w1, S', w2, hdec, hw1, hS', hw2⟩ := markerStrip_sound hms2
          have hhtml_j : html.drop j = (html.take i).drop j ++ html.drop i := by
            conv_lhs => rw [← List.take_append_drop i html]
            rw [List.drop_append_of_le_length (by omega)]
          have hleft := findFrom_leftmost (markerPairPat s e) html i rest hf j hj2
          have hmatch_at_j : ∀ W, html.drop i <:+ W →
              html.drop j =
                ('<' :: '!' :: '-' :: '-' :: (w1 ++ (S' ++ (w2 ++ ['-', '-', '>'])))) ++ W →
              False := by
            intro W hDW hW
            have hshapeW : ('<' :: '!' :: '-' :: '-' ::
                (w1 ++ (S' ++ (w2 ++ ['-', '-', '>'])))) ++ W =
                '<' :: '!' :: '-' :: '-' ::
                  (w1 ++ (S' ++ (w2 ++ ('-' :: '-' :: '>' :: W)))) := by simp
            have hmsj : markerStrip s (html.drop j) = some W := by
              rw [hW, hshapeW]
              exact markerStrip_complete hs hw1 hS' hw2 W
            obtain ⟨b, hb⟩ := lazyStar_isSome hu W (hu_suff.trans (ht0_suff.trans hDW))
            rw [markerPairPat, markerPat_closed hs, hmsj] at hleft
            have hleft2 : lazyStar (markerPat e some) W = none := hleft
            rw [hb] at hleft2
            exact Option.noConfusion hleft2
          have hSP : (html.take i).drop j ++
              (normMarker s ++ (('\n' :: r) ++ ('\n' :: (normMarker e ++ rest)))) =
              ('<' :: '!' :: '-' :: '-' :: (w1 ++ (S' ++ (w2 ++ ['-', '-', '>'])))) ++ t := by
            rw [hdec]
            simp
          rcases List.append_eq_append_iff.mp hSP with ⟨a2, ha1, ha2⟩ | ⟨c2, hc1, hc2⟩
          · cases a2 with
            | nil =>
              have hPeq : (html.take i).drop j =
                  '<' :: '!' :: '-' :: '-' :: (w1 ++ (S' ++ (w2 ++ ['-', '-', '>']))) := by
                simpa using ha1.symm
              exact hmatch_at_j (html.drop i) List.suffix_rfl (by rw [hhtml_j, hPeq])
            | cons a0 a2t =>
              have hXhead : normMarker s ++ (('\n' :: r) ++ ('\n' :: (normMarker e ++ rest))) =
                  '<' :: ('!' :: '-' :: '-' :: ' ' ::
                    (s ++ (" -->".data ++
                      (('\n' :: r) ++ ('\n' :: (normMarker e ++ rest)))))) := by
                rw [normMarker,
                  show "<!-- ".data = '<' :: '!' :: '-' :: '-' :: ' ' :: [] from rfl]
                simp
              have hcomb : '<' :: ('!' :: '-' :: '-' :: ' ' ::
                  (s ++ (" -->".data ++ (('\n' :: r) ++ ('\n' :: (normMarker e ++ rest)))))) =
                  a0 :: (a2t ++ t) := by
                rw [← hXhead, ha2]
                simp
              have ha0 : a0 = '<' := by
                injection hcomb with h1 h2
                exact h1.symm
              subst ha0
              have hPlen : ((html.take i).drop j).length = i - j := by
                rw [List.length_drop, hpre_len]
              cases hP : (html.take i).drop j with
              | nil =>
                rw [hP] at hPlen
                simp at hPlen
                omega
              | cons p0 P2 =>
                rw [hP, List.cons_append] at ha1
                injection ha1 with hp0 htail
                exact absurd
                  (by rw [htail]; simp :
                    ('<' : Char) ∈
                      ('!' :: '-' :: '-' :: (w1 ++ (S' ++ (w2 ++ ['-', '-', '>'])))))
                  (no_lt_in_tail hs hw1 hS' hw2)
          · exact hmatch_at_j (c2 ++ html.drop i) (List.suffix_append c2 (html.drop i))
              (by rw [hhtml_j, hc1]; simp)
      have hfind1 : findFrom (markerPairPat s e)
          (html.take i ++ (normMarker s ++ (('\n' :: r) ++ ('\n' :: (normMarker e ++ rest))))) =
          some (i, rest) := by
        rw [findFrom_append (failsOn_of_pointwise _ _ hptw_pre), findFrom_here hA]
        simp [hpre_len]
      have htake : (html.take i ++
          (normMarker s ++ (('\n' :: r) ++ ('\n' :: (normMarker e ++ rest))))).take i =
          html.take i := List.take_left' hpre_len
      rw [hout]
      show replace_between_markers
          (html.take i ++ (normMarker s ++ (('\n' :: r) ++ ('\n' :: (normMarker e ++ rest)))))
          s e r =
        (html.take i ++ (normMarker s ++ (('\n' :: r) ++ ('\n' :: (normMarker e ++ rest)))),
          true)
      rw [replace_between_markers, hfind1]
      show ((html.take i ++
          (normMarker s ++ (('\n' :: r) ++ ('\n' :: (normMarker e ++ rest))))).take i ++
          normMarker s ++ '\n' :: r ++ '\n' :: normMarker e ++ rest, true) =
        (html.take i ++ (normMarker s ++ (('\n' :: r) ++ ('\n' :: (normMarker e ++ rest)))),
          true)
      rw [htake]
      simp

/-- C6 amended witness: a concrete document replaced twice with a
replacement text holding markup but no comment opener; the hypotheses are
discharged by computation. -/
theorem C6_idempotent_amended_witness :
    CleanName "A".data ∧ CleanName "B".data ∧ hasOpen "<b>x</b>".data = false ∧
    replace_between_markers
      (replace_between_markers "z<!--a-->old<!--  b  -->w".data
        "A".data "B".data "<b>x</b>".data).1
      "A".data "B".data "<b>x</b>".data =
    replace_between_markers "z<!--a-->old<!--  b  -->w".data
      "A".data "B".data "<b>x</b>".data :=
  ⟨by decide, by decide, by decide,
    C6_idempotent_amended "z<!--a-->old<!--  b  -->w".data "A".data "B".data "<b>x</b>".data
      (by decide) (by decide) (by decide)⟩

/-- C5: on a document whose three field regions are pairwise disjoint (a
reimbursement marker pair, a Verantwortliche-Rechtsgrundlage heading pair
and a Beschwerderecht heading followed by the Einwilligungserklärung
section heading, separated by tag-free segments), a configuration
activating all three fields with nonempty tag-free texts replaces each of
the three regions exactly once: the reimbursement markers around t1, the
data protection span becomes t2, the complaint span becomes t3, every
other byte is untouched and no warnings are emitted. -/
theorem C5_sequential_composition (site s0 s1 s2 s3 m1 m2 m3 t1 t2 t3 : List Char)
    (hs0 : LtFree s0) (hs1 : LtFree s1) (hs2 : LtFree s2)
    (hm1 : LtFree m1) (hm2 : LtFree m2) (hm3 : LtFree m3)
    (hm2h : nonWsHead m2 = true) (hm3h : nonWsHead m3 = true)
    (ht1 : LtFree t1) (ht2 : LtFree t2)
    (hn1 : t1 ≠ []) (hn2 : t2 ≠ []) (hn3 : t3 ≠ []) :
    perform_conditional_replacements site
      ⟨some (ConfigVal.str "yes".data), some t1,
       some (ConfigVal.str "yes".data), some t2,
       some (ConfigVal.str "yes".data), some t3⟩
      (s0 ++ normMarker "REIMBURSEMENT_START".data ++ m1 ++
        normMarker "REIMBURSEMENT_END".data ++ s1 ++
        "<h3>Verantwortliche</h3>".data ++ m2 ++
        "<h3>Rechtsgrundlage</h3>".data ++ s2 ++
        "<h3>Beschwerderecht</h3>".data ++ m3 ++
        "<h2>Einwilligungserklärung</h2>".data ++ s3) =
    (s0 ++ normMarker "REIMBURSEMENT_START".data ++ '\n' :: t1 ++
      '\n' :: normMarker "REIMBURSEMENT_END".data ++ s1 ++
      "<h3>Verantwortliche</h3>".data ++ t2 ++
      '\n' :: "<h3>Rechtsgrundlage</h3>".data ++ s2 ++
      "<h3>Beschwerderecht</h3>".data ++ t3 ++
      '\n' :: "<h2>Einwilligungserklärung</h2>".data ++ s3, []) := by
  have hflag : flagYes (some (ConfigVal.str "yes".data)) = true := by decide
  have hfa1 : falsyText (some t1) = false := by
    cases t1 with
    | nil => exact absurd rfl hn1
    | cons c cs => rfl
  have hfa2 : falsyText (some t2) = false := by
    cases t2 with
    | nil => exact absurd rfl hn2
    | cons c cs => rfl
  have hfa3 : falsyText (some t3) = false := by
    cases t3 with
    | nil => exact absurd rfl hn3
    | cons c cs => rfl
  have hNL1 : LtFree ('\n' :: (t1 ++ ['\n'])) := by
    intro c hc
    simp at hc
    rcases hc with hc | hc | hc
    · subst hc; decide
    · exact ht1 c hc
    · subst hc; decide
  have hNL2 : LtFree (t2 ++ ['\n']) := by
    intro c hc
    simp at hc
    rcases hc with hc | hc
    · exact ht2 c hc
    · subst hc; decide
  -- field 1: the reimbursement marker pair
  have hfail1 : FailsOn
      (markerPairPat "REIMBURSEMENT_START".data "REIMBURSEMENT_END".data) s0
      (normMarker "REIMBURSEMENT_START".data ++ (m1 ++
        (normMarker "REIMBURSEMENT_END".data ++
          (s1 ++ (("<h3>".data ++ ("Verantwortliche".data ++ "</h3>".data)) ++
            (m2 ++ (("<h3>".data ++ ("Rechtsgrundlage".data ++ "</h3>".data)) ++
              (s2 ++ (("<h3>".data ++ ("Beschwerderecht".data ++ "</h3>".data)) ++
                (m3 ++ (("<h2>".data ++ ("Einwilligungserklärung".data ++ "</h2>".data)) ++
                  s3))))))))))) :=
    failsOn_ltFree (fun c cs hc => markerPairPat_head hc _ _ cs) hs0 _
  have hf1 := rbm_exact s0 "REIMBURSEMENT_START".data "REIMBURSEMENT_END".data m1
    (s1 ++ (("<h3>".data ++ ("Verantwortliche".data ++ "</h3>".data)) ++
      (m2 ++ (("<h3>".data ++ ("Rechtsgrundlage".data ++ "</h3>".data)) ++
        (s2 ++ (("<h3>".data ++ ("Beschwerderecht".data ++ "</h3>".data)) ++
          (m3 ++ (("<h2>".data ++ ("Einwilligungserklärung".data ++ "</h2>".data)) ++
            s3))))))))
    t1 hfail1 (by decide) (by decide) hm1
  have hA := applyReimbursement_marker_hit site
    ⟨some (ConfigVal.str "yes".data), some t1,
      some (ConfigVal.str "yes".data), some t2,
      some (ConfigVal.str "yes".data), some t3⟩ hflag hfa1 rfl hf1
  -- field 2: the Verantwortliche/Rechtsgrundlage heading pair
  have hheadP : ∀ c cs, lowEq '<' c = false →
      headingPairPat "Verantwortliche".data "Rechtsgrundlage".data (c :: cs) = none :=
    fun c cs hc => headingPairPat_head hc _ _ cs
  have hRSp : ∀ rest, FailsOn
      (headingPairPat "Verantwortliche".data "Rechtsgrundlage".data)
      ('<' :: "!-- REIMBURSEMENT_START -->".data) rest :=
    failsOn_single_lt (fun rest => h3Pre_second (by decide) _ _ _) hheadP (by decide)
  have hREp : ∀ rest, FailsOn
      (headingPairPat "Verantwortliche".data "Rechtsgrundlage".data)
      ('<' :: "!-- REIMBURSEMENT_END -->".data) rest :=
    failsOn_single_lt (fun rest => h3Pre_second (by decide) _ _ _) hheadP (by decide)
  have hfail2 : FailsOn
      (headingPairPat "Verantwortliche".data "Rechtsgrundlage".data)
      (s0 ++ (normMarker "REIMBURSEMENT_START".data ++ (('\n' :: (t1 ++ ['\n'])) ++
        (normMarker "REIMBURSEMENT_END".data ++ s1))))
      (("<h3>".data ++ ("Verantwortliche".data ++ "</h3>".data)) ++
        (m2 ++ ("<h3>".data ++ ("Rechtsgrundlage".data ++ ("</h3>".data ++
          (s2 ++ (("<h3>".data ++ ("Beschwerderecht".data ++ "</h3>".data)) ++
            (m3 ++ (("<h2>".data ++ ("Einwilligungserklärung".data ++ "</h2>".data)) ++
              s3))))))))) := by
    refine failsOn_append (failsOn_ltFree hheadP hs0 _) ?_
    refine failsOn_append (hRSp _) ?_
    refine failsOn_append (failsOn_ltFree hheadP hNL1 _) ?_
    exact failsOn_append (hREp _) (failsOn_ltFree hheadP hs1 _)
  have hf2 := rbh_exact
    (s2 ++ (("<h3>".data ++ ("Beschwerderecht".data ++ "</h3>".data)) ++
      (m3 ++ (("<h2>".data ++ ("Einwilligungserklärung".data ++ "</h2>".data)) ++ s3))))
    t2 hfail2 (by decide) (by decide) hm2 hm2h
  have hB := applyDataProtection_pair_hit site
    ⟨some (ConfigVal.str "yes".data), some t1,
      some (ConfigVal.str "yes".data), some t2,
      some (ConfigVal.str "yes".data), some t3⟩ hflag hfa2 rfl hf2
  -- field 3: Beschwerderecht up to the Einwilligungserklärung heading
  have hheadH : ∀ c cs, lowEq '<' c = false →
      headingH2Pat "Beschwerderecht".data "Einwilligungserklärung".data (c :: cs) = none :=
    fun c cs hc => headingH2Pat_head hc _ _ cs
  have hRSh : ∀ rest, FailsOn
      (headingH2Pat "Beschwerderecht".data "Einwilligungserklärung".data)
      ('<' :: "!-- REIMBURSEMENT_START -->".data) rest :=
    failsOn_single_lt (fun rest => h3Pre_second (by decide) _ _ _) hheadH (by decide)
  have hREh : ∀ rest, FailsOn
      (headingH2Pat "Beschwerderecht".data "Einwilligungserklärung".data)
      ('<' :: "!-- REIMBURSEMENT_END -->".data) rest :=
    failsOn_single_lt (fun rest => h3Pre_second (by decide) _ _ _) hheadH (by decide)
  have hclose : ∀ rest, FailsOn
      (headingH2Pat "Beschwerderecht".data "Einwilligungserklärung".data)
      ('<' :: "/h3>".data) rest :=
    failsOn_single_lt (fun rest => h3Pre_second (by decide) _ _ _) hheadH (by decide)
  have hH3Vh : ∀ rest, FailsOn
      (headingH2Pat "Beschwerderecht".data "Einwilligungserklärung".data)
      (('<' :: "h3>Verantwortliche".data) ++ ('<' :: "/h3>".data)) rest :=
    fun rest => failsOn_append
      (failsOn_single_lt (fun r => rfl) hheadH (by decide) _) (hclose rest)
  have hH3Rh : ∀ rest, FailsOn
      (headingH2Pat "Beschwerderecht".data "Einwilligungserklärung".data)
      (('<' :: "h3>Rechtsgrundlage".data) ++ ('<' :: "/h3>".data)) rest :=
    fun rest => failsOn_append
      (failsOn_single_lt (fun r => rfl) hheadH (by decide) _) (hclose rest)
  have hfail3 : FailsOn
      (headingH2Pat "Beschwerderecht".data "Einwilligungserklärung".data)
      (s0 ++ (normMarker "REIMBURSEMENT_START".data ++ (('\n' :: (t1 ++ ['\n'])) ++
        (normMarker "REIMBURSEMENT_END".data ++ (s1 ++
          (("<h3>".data ++ ("Verantwortliche".data ++ "</h3>".data)) ++
            ((t2 ++ ['\n']) ++
              (("<h3>".data ++ ("Rechtsgrundlage".data ++ "</h3>".data)) ++ s2))))))))
      (("<h3>".data ++ ("Beschwerderecht".data ++ "</h3>".data)) ++
        (m3 ++ ("<h2>".data ++ ("Einwilligungserklärung".data ++ ("</h2>".data ++ s3))))) := by
    refine failsOn_append (failsOn_ltFree hheadH hs0 _) ?_
    refine failsOn_append (hRSh _) ?_
    refine failsOn_append (failsOn_ltFree hheadH hNL1 _) ?_
    refine failsOn_append (hREh _) ?_
    refine failsOn_append (failsOn_ltFree hheadH hs1 _) ?_
    refine failsOn_append (hH3Vh _) ?_
    refine failsOn_append (failsOn_ltFree hheadH hNL2 _) ?_
    exact failsOn_append (hH3Rh _) (failsOn_ltFree hheadH hs2 _)
  have hf3 := rbh2_exact s3 t3 hfail3 (by decide) hm3 hm3h
  have hC := applyComplaintRights_h2_hit site
    ⟨some (ConfigVal.str "yes".data), some t1,
      some (ConfigVal.str "yes".data), some t2,
      some (ConfigVal.str "yes".data), some t3⟩ hflag hfa3 rfl hf3
  -- stitch the three fields together
  have heq1 : (s0 ++ (normMarker "REIMBURSEMENT_START".data ++ '\n' :: t1 ++
      '\n' :: normMarker "REIMBURSEMENT_END".data ++
        (s1 ++ (("<h3>".data ++ ("Verantwortliche".data ++ "</h3>".data)) ++
          (m2 ++ (("<h3>".data ++ ("Rechtsgrundlage".data ++ "</h3>".data)) ++
            (s2 ++ (("<h3>".data ++ ("Beschwerderecht".data ++ "</h3>".data)) ++
              (m3 ++ (("<h2>".data ++ ("Einwilligungserklärung".data ++ "</h2>".data)) ++
                s3)))))))))) =
      (s0 ++ (normMarker "REIMBURSEMENT_START".data ++ (('\n' :: (t1 ++ ['\n'])) ++
        (normMarker "REIMBURSEMENT_END".data ++ s1)))) ++
      (("<h3>".data ++ ("Verantwortliche".data ++ "</h3>".data)) ++
        (m2 ++ ("<h3>".data ++ ("Rechtsgrundlage".data ++ ("</h3>".data ++
          (s2 ++ (("<h3>".data ++ ("Beschwerderecht".data ++ "</h3>".data)) ++
            (m3 ++ (("<h2>".data ++ ("Einwilligungserklärung".data ++ "</h2>".data)) ++
              s3))))))))) := by
    simp [List.append_assoc]
  have heq2 : (s0 ++ (normMarker "REIMBURSEMENT_START".data ++ (('\n' :: (t1 ++ ['\n'])) ++
      (normMarker "REIMBURSEMENT_END".data ++ s1)))) ++
      (("<h3>".data ++ ("Verantwortliche".data ++ "</h3>".data)) ++
        (t2 ++ '\n' :: ("<h3>".data ++ ("Rechtsgrundlage".data ++ ("</h3>".data ++
          (s2 ++ (("<h3>".data ++ ("Beschwerderecht".data ++ "</h3>".data)) ++
            (m3 ++ (("<h2>".data ++ ("Einwilligungserklärung".data ++ "</h2>".data)) ++
              s3))))))))) =
      (s0 ++ (normMarker "REIMBURSEMENT_START".data ++ (('\n' :: (t1 ++ ['\n'])) ++
        (normMarker "REIMBURSEMENT_END".data ++ (s1 ++
          (("<h3>".data ++ ("Verantwortliche".data ++ "</h3>".data)) ++
            ((t2 ++ ['\n']) ++
              (("<h3>".data ++ ("Rechtsgrundlage".data ++ "</h3>".data)) ++ s2)))))))) ++
      (("<h3>".data ++ ("Beschwerderecht".data ++ "</h3>".data)) ++
        (m3 ++ ("<h2>".data ++ ("Einwilligungserklärung".data ++ ("</h2>".data ++ s3))))) := by
    simp [List.append_assoc]
  rw [heq1] at hA
  rw [heq2] at hB
  have hdoc : (s0 ++ normMarker "REIMBURSEMENT_START".data ++ m1 ++
      normMarker "REIMBURSEMENT_END".data ++ s1 ++
      "<h3>Verantwortliche</h3>".data ++ m2 ++
      "<h3>Rechtsgrundlage</h3>".data ++ s2 ++
      "<h3>Beschwerderecht</h3>".data ++ m3 ++
      "<h2>Einwilligungserklärung</h2>".data ++ s3) =
      (s0 ++ (normMarker "REIMBURSEMENT_START".data ++ (m1 ++
        (normMarker "REIMBURSEMENT_END".data ++
          (s1 ++ (("<h3>".data ++ ("Verantwortliche".data ++ "</h3>".data)) ++
            (m2 ++ (("<h3>".data ++ ("Rechtsgrundlage".data ++ "</h3>".data)) ++
              (s2 ++ (("<h3>".data ++ ("Beschwerderecht".data ++ "</h3>".data)) ++
                (m3 ++ (("<h2>".data ++ ("Einwilligungserklärung".data ++ "</h2>".data)) ++
                  s3)))))))))))) := by
    simp [List.append_assoc,
      show "<h3>Verantwortliche</h3>".data =
        "<h3>".data ++ ("Verantwortliche".data ++ "</h3>".data) from rfl,
      show "<h3>Rechtsgrundlage</h3>".data =
        "<h3>".data ++ ("Rechtsgrundlage".data ++ "</h3>".data) from rfl,
      show "<h3>Beschwerderecht</h3>".data =
        "<h3>".data ++ ("Beschwerderecht".data ++ "</h3>".data) from rfl,
      show "<h2>Einwilligungserklärung</h2>".data =
        "<h2>".data ++ ("Einwilligungserklärung".data ++ "</h2>".data) from rfl]
  have hout : (s0 ++ normMarker "REIMBURSEMENT_START".data ++ '\n' :: t1 ++
      '\n' :: normMarker "REIMBURSEMENT_END".data ++ s1 ++
      "<h3>Verantwortliche</h3>".data ++ t2 ++
      '\n' :: "<h3>Rechtsgrundlage</h3>".data ++ s2 ++
      "<h3>Beschwerderecht</h3>".data ++ t3 ++
      '\n' :: "<h2>Einwilligungserklärung</h2>".data ++ s3) =
      (s0 ++ (normMarker "REIMBURSEMENT_START".data ++ (('\n' :: (t1 ++ ['\n'])) ++
        (normMarker "REIMBURSEMENT_END".data ++ (s1 ++
          (("<h3>".data ++ ("Verantwortliche".data ++ "</h3>".data)) ++
            ((t2 ++ ['\n']) ++
              (("<h3>".data ++ ("Rechtsgrundlage".data ++ "</h3>".data)) ++ s2)))))))) ++
      (("<h3>".data ++ ("Beschwerderecht".data ++ "</h3>".data)) ++
        (t3 ++ '\n' :: ("<h2>".data ++ ("Einwilligungserklärung".data ++
          ("</h2>".data ++ s3))))) := by
    simp [List.append_assoc,
      show "<h3>Verantwortliche</h3>".data =
        "<h3>".data ++ ("Verantwortliche".data ++ "</h3>".data) from rfl,
      show "<h3>Rechtsgrundlage</h3>".data =
        "<h3>".data ++ ("Rechtsgrundlage".data ++ "</h3>".data) from rfl,
      show "<h3>Beschwerderecht</h3>".data =
        "<h3>".data ++ ("Beschwerderecht".data ++ "</h3>".data) from rfl,
      show "<h2>Einwilligungserklärung</h2>".data =
        "<h2>".data ++ ("Einwilligungserklärung".data ++ "</h2>".data) from rfl]
  rw [hdoc, hout, perform_conditional_replacements, hA]
  simp only []
  rw [hB]
  simp only []
  rw [hC]
  simp

/-- C5 witness: a concrete document with the three disjoint regions and a
configuration activating all three fields. -/
theorem C5_sequential_composition_witness :
    perform_conditional_replacements "bonn".data
      ⟨some (ConfigVal.str "yes".data), some "T1".data,
       some (ConfigVal.str "yes".data), some "T2".data,
       some (ConfigVal.str "yes".data), some "T3".data⟩
      ("a".data ++ normMarker "REIMBURSEMENT_START".data ++ "x".data ++
        normMarker "REIMBURSEMENT_END".data ++ "b".data ++
        "<h3>Verantwortliche</h3>".data ++ "y".data ++
        "<h3>Rechtsgrundlage</h3>".data ++ "c".data ++
        "<h3>Beschwerderecht</h3>".data ++ "z".data ++
        "<h2>Einwilligungserklärung</h2>".data ++ "d".data) =
    ("a".data ++ normMarker "REIMBURSEMENT_START".data ++ '\n' :: "T1".data ++
      '\n' :: normMarker "REIMBURSEMENT_END".data ++ "b".data ++
      "<h3>Verantwortliche</h3>".data ++ "T2".data ++
      '\n' :: "<h3>Rechtsgrundlage</h3>".data ++ "c".data ++
      "<h3>Beschwerderecht</h3>".data ++ "T3".data ++
      '\n' :: "<h2>Einwilligungserklärung</h2>".data ++ "d".data, []) :=
  C5_sequential_composition "bonn".data "a".data "b".data "c".data "d".data
    "x".data "y".data "z".data "T1".data "T2".data "T3".data
    (by decide) (by decide) (by decide) (by decide) (by decide) (by decide)
    (by decide) (by decide) (by decide) (by decide) (by decide) (by decide)
    (by decide)

/-- C10: the activation flag is passed through the str conversion before
the case-insensitive comparison with yes, so the JSON Boolean true (string
form True) leaves the field inactive, an absent key defaults to no, and
values with surrounding whitespace are not trimmed and stay inactive;
case variants of the plain word yes do activate. -/
theorem C10_flag_semantics :
    flagYes (some (ConfigVal.bool true)) = false ∧
    flagYes (some (ConfigVal.bool false)) = false ∧
    flagYes none = false ∧
    flagYes (some (ConfigVal.str " yes ".data)) = false ∧
    flagYes (some (ConfigVal.str "yes".data)) = true ∧
    flagYes (some (ConfigVal.str "YES".data)) = true ∧
    flagYes (some (ConfigVal.str "Yes".data)) = true := by
  decide

end Consent
